import Mathlib

/-!
# LED breathing patterns (`HelloWorld/main/HelloWorld.c`)

A shallow embedding of the program that drives three LEDs through the LEDC
PWM peripheral, followed by theorems about it.

* The hardware is a record of the duty latched in every LEDC channel together
  with the trace of externally visible events (duty writes, delays, log lines,
  entries to `breathe_once`).
* `int` loop counters are `Int`/`Nat`; conversions between integer types are
  written `% 2 ^ w`.
* Single-precision arithmetic is "exact result, then round to 24 significant
  bits, ties to even" over `ℚ`, one rounding per C operation.  The exponent
  range of binary32 is not modelled (no overflow, no subnormal rounding): as
  long as `cosf` returns a binary32 value of magnitude at most 2, every rounded
  result of this program is zero or has a magnitude between `2 ^ (-25)` and
  `2 ^ 12`.
* `cosf` (C library) and `esp_random` (ROM) are not part of the repository and
  are parameters.  Theorems about the duty values assume `CosfAccurate`.
-/

namespace LedBreath

/-! ## Constants -/

/-- Modelled from the spec: `LEDC_TIMER_10_BIT` is an enumerator of the LEDC
driver header, which is not part of the repository; the spec fixes the duty
resolution at 10 bits. -/
def LEDC_DUTY_RES : Nat := 10

/-- `#define DUTY_MAX ((1 << LEDC_DUTY_RES) - 1)`. -/
def DUTY_MAX : Nat := (1 <<< LEDC_DUTY_RES) - 1

/-- `#define BREATH_STEPS 64`. -/
def BREATH_STEPS : Nat := 64

/-- `#define BREATH_STEP_DELAY_MS 15`. -/
def BREATH_STEP_DELAY_MS : Nat := 15

/-- `#define HOLD_BETWEEN_MS 600`. -/
def HOLD_BETWEEN_MS : Nat := 600

/-- `#define NUM_LEDS (sizeof(LED_PINS)/sizeof(LED_PINS[0]))`: three pins. -/
def NUM_LEDS : Nat := 3

/-- Modelled from the spec: `LEDC_CHANNEL_0`, the first channel identifier of
the LEDC driver header (not part of the repository); channels are numbered
from 0. -/
def LEDC_CHANNEL_BASE : Nat := 0

/-- `LED_CHS[i] = LEDC_CHANNEL_BASE + i`. -/
def LED_CHS (i : Nat) : Nat := LEDC_CHANNEL_BASE + i

/-! ## Hardware state and trace -/

/-- Externally visible events, in program order. -/
inductive Event
  | log (msg : String)
  | setDuty (ch : Nat) (duty : Nat)
  | delay (ms : Nat)
  | breathe (mask : Nat)
  deriving DecidableEq, Repr

/-- The LEDC peripheral: the duty latched in every channel, and the trace
of events so far. -/
structure Hw where
  duty : Nat → Nat
  trace : List Event

/-- Append one event to the trace. -/
def Hw.emit (hw : Hw) (e : Event) : Hw :=
  { hw with trace := hw.trace ++ [e] }

/-- The state in which every channel has duty 0 and nothing has happened yet:
what a successful `leds_pwm_init` leaves (each channel is configured with
`.duty = 0`). -/
def Hw.dark : Hw := { duty := fun _ => 0, trace := [] }

/-- `ESP_LOGI(TAG, msg)`. -/
def ESP_LOGI (msg : String) (hw : Hw) : Hw := hw.emit (.log msg)

/-- `vTaskDelay(pdMS_TO_TICKS(ms))`. -/
def vTaskDelay (ms : Nat) (hw : Hw) : Hw := hw.emit (.delay ms)

/-- `ledc_set_duty(LEDC_MODE, ch, duty); ledc_update_duty(LEDC_MODE, ch);`. -/
def ledc_write (ch duty : Nat) (hw : Hw) : Hw :=
  { duty := Function.update hw.duty ch duty
    trace := hw.trace ++ [.setDuty ch duty] }

/-- `for (int i = 0; i < n; ++i) body(i);` for an `n` that is not negative. -/
def forUpTo (n : Nat) (body : Nat → Hw → Hw) (hw : Hw) : Hw :=
  (List.range n).foldl (fun h i => body i h) hw

/-- The values taken by `i` in `for (int i = start; i >= lo; --i)`. -/
def downIndices (start lo : Int) : List Int :=
  (List.range (start - lo + 1).toNat).map (fun k => start - (k : Int))

/-- `for (int i = start; i >= lo; --i) body(i);`. -/
def forDownTo (start lo : Int) (body : Int → Hw → Hw) (hw : Hw) : Hw :=
  (downIndices start lo).foldl (fun h i => body i h) hw

/-- Conversion of an `int` to a 32-bit unsigned value. -/
def toU32 (i : Int) : Nat := (i % 2 ^ 32).toNat

/-- Subtraction of 32-bit unsigned values (wraps around). -/
def subU32 (a b : Nat) : Nat := (a + 2 ^ 32 - b % 2 ^ 32) % 2 ^ 32

/-- Conversion of a 32-bit unsigned value to `int` (two's complement). -/
def toI32 (n : Nat) : Int :=
  if n % 2 ^ 32 < 2 ^ 31 then ((n % 2 ^ 32 : Nat) : Int) else ((n % 2 ^ 32 : Nat) : Int) - 2 ^ 32

/-! ## Channel writes -/

/-- `led_set_brightness_idx(idx, duty)`: out-of-range indices are ignored
(`idx >= NUM_LEDS` compares as unsigned), the duty is clamped to `DUTY_MAX`. -/
def led_set_brightness_idx (idx : Int) (duty : Nat) (hw : Hw) : Hw :=
  if idx < 0 ∨ NUM_LEDS ≤ toU32 idx then hw
  else
    let duty := if duty > DUTY_MAX then DUTY_MAX else duty
    ledc_write (LED_CHS idx.toNat) duty hw

/-- `leds_all_off()`. -/
def leds_all_off (hw : Hw) : Hw :=
  forUpTo NUM_LEDS (fun i h => led_set_brightness_idx i 0 h) hw

/-- `leds_set_group_brightness(mask, duty)`. -/
def leds_set_group_brightness (mask : Nat) (duty : Nat) (hw : Hw) : Hw :=
  forUpTo NUM_LEDS (fun i h =>
    if mask &&& ((1 <<< i) % 2 ^ 32) ≠ 0 then led_set_brightness_idx i duty h
    else led_set_brightness_idx i 0 h) hw

/-! ## Single-precision arithmetic -/

/-- Nearest integer, ties to the even one. -/
def roundHalfEven (x : ℚ) : ℤ :=
  let f := ⌊x⌋
  let r := x - f
  if r < 1 / 2 then f
  else if 1 / 2 < r then f + 1
  else if f % 2 = 0 then f else f + 1

/-- Rounding to the nearest binary floating-point value with `p` significant
bits, ties to even: with `2 ^ e ≤ |q| < 2 ^ (e + 1)` the result is the
multiple of `2 ^ (e + 1 - p)` nearest to `q`. -/
def fround (p : Nat) (q : ℚ) : ℚ :=
  if q = 0 then 0
  else
    let u : ℚ := 2 ^ (Int.log 2 |q| + 1 - (p : Int))
    (roundHalfEven (q / u) : ℚ) * u

/-- Rounding to `float` (binary32, 24 significant bits). -/
def f32 (q : ℚ) : ℚ := fround 24 q

/-- Rounding to `double` (binary64, 53 significant bits). -/
def f64 (q : ℚ) : ℚ := fround 53 q

/-- Modelled from the spec: `M_PI` of `math.h` (not part of the repository),
the `double` nearest to the decimal expansion of π. -/
def M_PI : ℚ := f64 3.14159265358979323846

/-- Conversion `(uint32_t)x` of a `float`: the fractional part is discarded.
The conversion is undefined in C when the integral part is negative or
exceeds 32 bits; here a negative integral part gives 0 and a large one is
reduced modulo `2 ^ 32`. -/
def f32_to_u32 (x : ℚ) : Nat :=
  (if 0 ≤ x then ⌊x⌋ else ⌈x⌉).toNat % 2 ^ 32

/-- The `float` value `b * DUTY_MAX` computed in one iteration of either loop
of `breathe_once`:
`x = (float)s / (float)BREATH_STEPS`,
`b = 0.5f * (1.0f - cosf((float)M_PI * x))`. -/
def breath_value (cosf : ℚ → ℚ) (s : Nat) : ℚ :=
  let x : ℚ := f32 (f32 (s : ℚ) / f32 (BREATH_STEPS : ℚ))
  let b : ℚ := f32 ((1 / 2) * f32 (1 - cosf (f32 (f32 M_PI * x))))
  f32 (b * f32 (DUTY_MAX : ℚ))

/-- The duty of step `s`: `uint32_t duty = (uint32_t)(b * DUTY_MAX)`. -/
def breath_duty (cosf : ℚ → ℚ) (s : Nat) : Nat :=
  f32_to_u32 (breath_value cosf s)

/-! ## Breathing and the three patterns -/

/-- One loop iteration of `breathe_once`: group write, then the step delay. -/
def breathe_step (cosf : ℚ → ℚ) (mask : Nat) (s : Nat) (hw : Hw) : Hw :=
  vTaskDelay BREATH_STEP_DELAY_MS (leds_set_group_brightness mask (breath_duty cosf s) hw)

/-- The loop body of `breathe_once` run for the steps of `l`, in order. -/
def runSteps (cosf : ℚ → ℚ) (mask : Nat) (l : List Nat) (hw : Hw) : Hw :=
  l.foldl (fun h s => breathe_step cosf mask s h) hw

/-- The values of `s` in `for (int s = 0; s <= BREATH_STEPS; ++s)`. -/
def stepsUp : List Nat := List.range (BREATH_STEPS + 1)

/-- The values of `s` in `for (int s = BREATH_STEPS; s >= 0; --s)`. -/
def stepsDown : List Nat := (List.range (BREATH_STEPS + 1)).reverse

/-- `breathe_once(mask)`; the entry is recorded in the trace. -/
def breathe_once (cosf : ℚ → ℚ) (mask : Nat) (hw : Hw) : Hw :=
  let hw := hw.emit (.breathe mask)
  let hw := runSteps cosf mask stepsUp hw
  let hw := runSteps cosf mask stepsDown hw
  leds_all_off hw

/-- The argument `1U << i` converted to the `uint8_t` parameter. -/
def bitMask (i : Nat) : Nat := ((1 <<< i) % 2 ^ 32) % 2 ^ 8

/-- `pattern_knight_rider_breath(cycles)`. -/
def pattern_knight_rider_breath (cosf : ℚ → ℚ) (cycles : Int) (hw : Hw) : Hw :=
  let hw := ESP_LOGI "Pattern: Knight Rider (breath)" hw
  let hw := forUpTo cycles.toNat (fun _ h =>
    let h := forUpTo NUM_LEDS (fun i h => breathe_once cosf (bitMask i) h) h
    forDownTo (toI32 (subU32 NUM_LEDS 2)) 1 (fun i h => breathe_once cosf (bitMask i.toNat) h) h) hw
  leds_all_off hw

/-- `pattern_binary_counter_breath(rounds)`.  The `uint8_t` counter `val`
runs below `max_val ≤ 255`, so `++val` never wraps. -/
def pattern_binary_counter_breath (cosf : ℚ → ℚ) (rounds : Int) (hw : Hw) : Hw :=
  let hw := ESP_LOGI "Pattern: Binary Counter (breath)" hw
  let max_val : Nat := ((1 <<< NUM_LEDS) % 2 ^ 32) % 2 ^ 8
  let hw := forUpTo rounds.toNat (fun _ h =>
    forUpTo max_val (fun val h => breathe_once cosf val h) h) hw
  leds_all_off hw

/-- The mask computed from one random draw in `pattern_random_breath`. -/
def random_mask (rnd : Nat) : Nat :=
  let mask := (rnd &&& ((1 <<< NUM_LEDS) % 2 ^ 32 - 1)) % 2 ^ 8
  if mask = 0 then ((1 <<< (rnd % NUM_LEDS)) % 2 ^ 32) % 2 ^ 8 else mask

/-- `pattern_random_breath(flashes)`; `esp_random i` is the value returned
by the `i`-th call of `esp_random()`, taken as a 32-bit value. -/
def pattern_random_breath (cosf : ℚ → ℚ) (esp_random : Nat → Nat) (flashes : Int)
    (hw : Hw) : Hw :=
  let hw := ESP_LOGI "Pattern: Random (breath)" hw
  let hw := forUpTo flashes.toNat (fun i h =>
    breathe_once cosf (random_mask (esp_random i % 2 ^ 32)) h) hw
  leds_all_off hw

/-! ## Start-up -/

/-- Results of the driver's configuration calls (`true` for `ESP_OK`):
`ledc_timer_config` and, per LED index, `ledc_channel_config`. -/
structure LedcDriver where
  timer_config : Bool
  channel_config : Nat → Bool

/-- Modelled from the spec: `ESP_ERROR_CHECK` is a macro of the ESP-IDF
headers, which are not part of the repository; the spec makes a configuration
failure fatal, so the program aborts (`none`) when the checked call did not
return `ESP_OK`, and continues otherwise. -/
def ESP_ERROR_CHECK (ok : Bool) (hw : Hw) : Option Hw :=
  if ok = false then none else some hw

/-- `leds_pwm_init()`: `ESP_ERROR_CHECK` aborts on the first failing call
(`none`); a channel that is configured starts with `.duty = 0`. -/
def leds_pwm_init (drv : LedcDriver) (hw : Hw) : Option Hw :=
  (ESP_ERROR_CHECK drv.timer_config hw).bind (fun hw =>
    (List.range NUM_LEDS).foldlM (fun h i =>
      ESP_ERROR_CHECK (drv.channel_config i)
        { h with duty := Function.update h.duty (LED_CHS i) 0 }) hw)

/-! ## The driver loop -/

/-- One iteration of the `while (1)` loop of `app_main`; `esp_random i` is the
value returned by the `i`-th call of `esp_random()` during the iteration. -/
def app_main_iteration (cosf : ℚ → ℚ) (esp_random : Nat → Nat) (hw : Hw) : Hw :=
  let hw := pattern_knight_rider_breath cosf 3 hw
  let hw := vTaskDelay HOLD_BETWEEN_MS hw
  let hw := pattern_binary_counter_breath cosf 2 hw
  let hw := vTaskDelay HOLD_BETWEEN_MS hw
  let hw := pattern_random_breath cosf esp_random 6 hw
  vTaskDelay HOLD_BETWEEN_MS hw

/-- The first `n` iterations of the `while (1)` loop of `app_main`; `rnd k` is
the random source during iteration `k`. -/
def app_main_loop (cosf : ℚ → ℚ) (rnd : Nat → Nat → Nat) : Nat → Hw → Hw
  | 0, hw => hw
  | n + 1, hw => app_main_iteration cosf (rnd n) (app_main_loop cosf rnd n hw)

/-- How far `app_main` has got: aborted during start-up (with the trace up to
the abort), or running the loop. -/
inductive Outcome
  | aborted (trace : List Event)
  | running (hw : Hw)

/-- `app_main()`, observed after `n` iterations of its endless loop. -/
def app_main (cosf : ℚ → ℚ) (drv : LedcDriver) (rnd : Nat → Nat → Nat) (n : Nat)
    (hw : Hw) : Outcome :=
  let hw := ESP_LOGI "ESP32 LED Breathing Patterns Started" hw
  match leds_pwm_init drv hw with
  | none => .aborted hw.trace
  | some hw => .running (app_main_loop cosf rnd n hw)

/-! ## The patterns with the LED count as a parameter -/

/-- The loop nest of `pattern_knight_rider_breath` with `NUM_LEDS` replaced by
`N` and the call `breathe_once(mask)` by `breathe mask`. -/
def knight_rider_sweeps (N : Nat) (breathe : Nat → Hw → Hw) (cycles : Int) (hw : Hw) : Hw :=
  forUpTo cycles.toNat (fun _ h =>
    let h := forUpTo N (fun i h => breathe (bitMask i) h) h
    forDownTo (toI32 (subU32 N 2)) 1 (fun i h => breathe (bitMask i.toNat) h) h) hw

/-- `for (uint8_t val = start; val < max_val; ++val) body(val);` with the
wrap-around of `++val` at 256, run for at most `fuel` tests of the loop
condition (`none` when the fuel runs out before the loop exits). -/
def u8_for : Nat → Nat → Nat → (Nat → Hw → Hw) → Hw → Option Hw
  | 0, _, _, _, _ => none
  | fuel + 1, max_val, val, body, hw =>
    if val < max_val then u8_for fuel max_val ((val + 1) % 2 ^ 8) body (body val hw)
    else some hw

/-- One round of `pattern_binary_counter_breath` with `NUM_LEDS` replaced by
`N` and the call `breathe_once(val)` by `breathe val`:
`uint8_t max_val = (1U << N);` then the `uint8_t` loop. -/
def binary_counter_round (N : Nat) (breathe : Nat → Hw → Hw) (fuel : Nat) (hw : Hw) :
    Option Hw :=
  u8_for fuel (((1 <<< N) % 2 ^ 32) % 2 ^ 8) 0 breathe hw

/-! ## Observations -/

/-- The value that `leds_set_group_brightness(mask, duty)` stores in channel
`i`. -/
def groupDuty (mask duty i : Nat) : Nat :=
  if mask.testBit i then min duty DUTY_MAX else 0

/-- The events of one `leds_set_group_brightness(mask, duty)`. -/
def groupEvents (mask duty : Nat) : List Event :=
  [.setDuty 0 (groupDuty mask duty 0), .setDuty 1 (groupDuty mask duty 1),
   .setDuty 2 (groupDuty mask duty 2)]

/-- The events of one loop iteration of `breathe_once` at step `s`. -/
def stepEvents (cosf : ℚ → ℚ) (mask s : Nat) : List Event :=
  groupEvents mask (breath_duty cosf s) ++ [.delay BREATH_STEP_DELAY_MS]

/-- The events of `leds_all_off()`. -/
def offEvents : List Event := [.setDuty 0 0, .setDuty 1 0, .setDuty 2 0]

/-- The events of one `breathe_once(mask)`. -/
def breatheEvents (cosf : ℚ → ℚ) (mask : Nat) : List Event :=
  [.breathe mask] ++ (stepsUp.map (stepEvents cosf mask)).flatten
    ++ (stepsDown.map (stepEvents cosf mask)).flatten ++ offEvents

/-- The masks of the `breathe_once` calls recorded in a trace, in order. -/
def breatheMasks (tr : List Event) : List Nat :=
  tr.filterMap (fun e => match e with
    | .breathe m => some m
    | _ => none)

/-- The delays recorded in a trace, in order (milliseconds). -/
def delaysOf (tr : List Event) : List Nat :=
  tr.filterMap (fun e => match e with
    | .delay ms => some ms
    | _ => none)

/-- The channel writes recorded in a trace, in order: channel and duty. -/
def writesOf (tr : List Event) : List (Nat × Nat) :=
  tr.filterMap (fun e => match e with
    | .setDuty ch d => some (ch, d)
    | _ => none)

/-- The duties computed by the ascending loop of `breathe_once`, in order. -/
def dutiesUp (cosf : ℚ → ℚ) : List Nat := stepsUp.map (breath_duty cosf)

/-- The duties computed by the descending loop of `breathe_once`, in order. -/
def dutiesDown (cosf : ℚ → ℚ) : List Nat := stepsDown.map (breath_duty cosf)

/-- The phase `x = (float)s / (float)BREATH_STEPS` of step `s`. -/
def breath_phase (s : Nat) : ℚ := f32 (f32 (s : ℚ) / f32 (BREATH_STEPS : ℚ))

/-- The intensity `b = 0.5f * (1.0f - cosf((float)M_PI * x))` of step `s`. -/
def breath_intensity (cosf : ℚ → ℚ) (s : Nat) : ℚ :=
  f32 ((1 / 2) * f32 (1 - cosf (f32 (f32 M_PI * breath_phase s))))

/-- The state right after the group write of the ascending iteration with
step `s` of `breathe_once(mask)` started in `hw` (before that step's delay). -/
def afterWriteUp (cosf : ℚ → ℚ) (mask : Nat) (hw : Hw) (s : Nat) : Hw :=
  leds_set_group_brightness mask (breath_duty cosf s)
    (runSteps cosf mask (stepsUp.take s) (hw.emit (.breathe mask)))

/-- The state right after the group write of the descending iteration with
step `s` of `breathe_once(mask)` started in `hw` (before that step's delay). -/
def afterWriteDown (cosf : ℚ → ℚ) (mask : Nat) (hw : Hw) (s : Nat) : Hw :=
  leds_set_group_brightness mask (breath_duty cosf s)
    (runSteps cosf mask (stepsDown.take (BREATH_STEPS - s))
      (runSteps cosf mask stepsUp (hw.emit (.breathe mask))))

/-- The operations of the program that touch the LEDC peripheral. -/
inductive Op
  | setIdx (idx : Int) (duty : Nat)
  | allOff
  | setGroup (mask duty : Nat)
  | delay (ms : Nat)
  | breathe (mask : Nat)
  | knightRider (cycles : Int)
  | binaryCounter (rounds : Int)
  | random (esp_random : Nat → Nat) (flashes : Int)

/-- Run one operation. -/
def Op.run (cosf : ℚ → ℚ) : Op → Hw → Hw
  | .setIdx idx duty => led_set_brightness_idx idx duty
  | .allOff => leds_all_off
  | .setGroup mask duty => leds_set_group_brightness mask duty
  | .delay ms => vTaskDelay ms
  | .breathe mask => breathe_once cosf mask
  | .knightRider cycles => pattern_knight_rider_breath cosf cycles
  | .binaryCounter rounds => pattern_binary_counter_breath cosf rounds
  | .random esp_random flashes => pattern_random_breath cosf esp_random flashes

/-- Every LED channel holds a duty of at most `DUTY_MAX`. -/
def DutiesBounded (hw : Hw) : Prop := ∀ i, i < NUM_LEDS → hw.duty (LED_CHS i) ≤ DUTY_MAX

/-! ## The brightness curve over the reals, and the accuracy of `cosf` -/

/-- The brightness curve over the reals: `0.5 * (1 - cos (π p))`. -/
noncomputable def curve (p : ℝ) : ℝ := 0.5 * (1 - Real.cos (Real.pi * p))

/-- Accuracy assumed of the C library's `cosf`: the value returned is within
`2 ^ (-22)` of the cosine of the argument. -/
def CosfAccurate (cosf : ℚ → ℚ) : Prop :=
  ∀ x : ℚ, |((cosf x : ℚ) : ℝ) - Real.cos (x : ℝ)| ≤ 1 / 2 ^ 22

/-- Correct rounding of `cosf` at the argument `x`: the value returned is a
binary32 value, and no binary32 value is nearer to the cosine of `x`. -/
def CosfNearestAt (cosf : ℚ → ℚ) (x : ℚ) : Prop :=
  f32 (cosf x) = cosf x
  ∧ ∀ y : ℚ, f32 y = y → |((cosf x : ℚ) : ℝ) - Real.cos (x : ℝ)| ≤ |((y : ℚ) : ℝ) - Real.cos (x : ℝ)|

/-- An accurate `cosf`: the cosine rounded to the nearest multiple of
`2 ^ (-24)`, which is a binary32 value. -/
noncomputable def cosfIdeal (x : ℚ) : ℚ := (round (Real.cos (x : ℝ) * 2 ^ 24) : ℚ) / 2 ^ 24

/-! ## Channel writes: basic facts -/

theorem forUpTo_succ (n : Nat) (body : Nat → Hw → Hw) (hw : Hw) :
    forUpTo (n + 1) body hw = body n (forUpTo n body hw) := by
  simp [forUpTo, List.range_succ, List.foldl_append]

theorem forUpTo_three (body : Nat → Hw → Hw) (hw : Hw) :
    forUpTo NUM_LEDS body hw = body 2 (body 1 (body 0 hw)) := rfl

theorem mask_bit_iff (m i : Nat) (hi : i < 32) :
    m &&& ((1 <<< i) % 2 ^ 32) ≠ 0 ↔ m.testBit i = true := by
  have h1 : (1 <<< i) % 2 ^ 32 = 2 ^ i := by
    rw [Nat.one_shiftLeft]
    exact Nat.mod_eq_of_lt (Nat.pow_lt_pow_right (by decide) hi)
  rw [h1]
  constructor
  · intro h
    by_contra hb
    apply h
    apply Nat.eq_of_testBit_eq
    intro j
    rw [Nat.testBit_and, Nat.testBit_two_pow, Nat.zero_testBit]
    by_cases hij : i = j
    · subst hij; simp [hb]
    · simp [hij]
  · intro hb h0
    have h2 : (m &&& 2 ^ i).testBit i = true := by
      rw [Nat.testBit_and, Nat.testBit_two_pow_self, hb]; rfl
    rw [h0, Nat.zero_testBit] at h2
    exact Bool.noConfusion h2

theorem led_set_brightness_idx_eq (i duty : Nat) (hi : i < NUM_LEDS) (hw : Hw) :
    led_set_brightness_idx (i : Int) duty hw = ledc_write i (min duty DUTY_MAX) hw := by
  have h0 : ¬ ((i : Int) < 0) := by omega
  have h1 : ¬ (NUM_LEDS ≤ toU32 (i : Int)) := by
    unfold toU32 NUM_LEDS at *
    omega
  have h2 : (if duty > DUTY_MAX then DUTY_MAX else duty) = min duty DUTY_MAX := by
    by_cases h : duty > DUTY_MAX
    · rw [if_pos h]; omega
    · rw [if_neg h]; omega
  simp only [led_set_brightness_idx, h0, h1, or_self, if_false, h2, LED_CHS, LEDC_CHANNEL_BASE,
    Int.toNat_ofNat, Nat.zero_add]

theorem leds_all_off_eq (hw : Hw) :
    leds_all_off hw = ledc_write 2 0 (ledc_write 1 0 (ledc_write 0 0 hw)) := by
  unfold leds_all_off
  rw [forUpTo_three]
  rw [led_set_brightness_idx_eq 0 0 (by decide), led_set_brightness_idx_eq 1 0 (by decide),
    led_set_brightness_idx_eq 2 0 (by decide), Nat.zero_min]

theorem leds_set_group_brightness_eq (mask duty : Nat) (hw : Hw) :
    leds_set_group_brightness mask duty hw
      = ledc_write 2 (groupDuty mask duty 2)
          (ledc_write 1 (groupDuty mask duty 1) (ledc_write 0 (groupDuty mask duty 0) hw)) := by
  have step : ∀ (i : Nat) (h : Hw), i < NUM_LEDS →
      (if mask &&& ((1 <<< i) % 2 ^ 32) ≠ 0 then led_set_brightness_idx (i : Int) duty h
        else led_set_brightness_idx (i : Int) 0 h) = ledc_write i (groupDuty mask duty i) h := by
    intro i h hi
    have hi32 : i < 32 := by unfold NUM_LEDS at hi; omega
    unfold groupDuty
    by_cases hb : mask.testBit i = true
    · rw [if_pos ((mask_bit_iff mask i hi32).2 hb), if_pos hb, led_set_brightness_idx_eq i duty hi]
    · have hn : ¬ (mask &&& ((1 <<< i) % 2 ^ 32) ≠ 0) := fun h => hb ((mask_bit_iff mask i hi32).1 h)
      rw [if_neg hn, if_neg hb, led_set_brightness_idx_eq i 0 hi, Nat.zero_min]
  unfold leds_set_group_brightness
  rw [forUpTo_three]
  have s0 := step 0 hw (by decide)
  have s1 := step 1 (ledc_write 0 (groupDuty mask duty 0) hw) (by decide)
  have s2 := step 2 (ledc_write 1 (groupDuty mask duty 1) (ledc_write 0 (groupDuty mask duty 0) hw))
    (by decide)
  rw [s0, s1, s2]

/-! ## Traces -/

theorem leds_all_off_trace (hw : Hw) : (leds_all_off hw).trace = hw.trace ++ offEvents := by
  rw [leds_all_off_eq]
  simp [ledc_write, offEvents]

theorem leds_all_off_duty (hw : Hw) (ch : Nat) :
    (leds_all_off hw).duty ch = if ch < NUM_LEDS then 0 else hw.duty ch := by
  rw [leds_all_off_eq]
  simp only [ledc_write, Function.update_apply, NUM_LEDS]
  split_ifs <;> first | rfl | omega

theorem leds_set_group_brightness_trace (mask duty : Nat) (hw : Hw) :
    (leds_set_group_brightness mask duty hw).trace = hw.trace ++ groupEvents mask duty := by
  rw [leds_set_group_brightness_eq]
  simp [ledc_write, groupEvents]

theorem leds_set_group_brightness_duty (mask duty : Nat) (hw : Hw) (ch : Nat) :
    (leds_set_group_brightness mask duty hw).duty ch
      = if ch < NUM_LEDS then groupDuty mask duty ch else hw.duty ch := by
  rw [leds_set_group_brightness_eq]
  simp only [ledc_write, Function.update_apply, NUM_LEDS]
  split_ifs <;> first | rfl | omega | (subst_vars; rfl)

theorem breathe_step_trace (cosf : ℚ → ℚ) (mask s : Nat) (hw : Hw) :
    (breathe_step cosf mask s hw).trace = hw.trace ++ stepEvents cosf mask s := by
  simp [breathe_step, vTaskDelay, Hw.emit, leds_set_group_brightness_trace, stepEvents]

theorem breathe_step_duty (cosf : ℚ → ℚ) (mask s : Nat) (hw : Hw) (ch : Nat) :
    (breathe_step cosf mask s hw).duty ch
      = if ch < NUM_LEDS then groupDuty mask (breath_duty cosf s) ch else hw.duty ch := by
  simp [breathe_step, vTaskDelay, Hw.emit, leds_set_group_brightness_duty]

theorem foldl_trace {α : Type} (body : α → Hw → Hw) (ev : α → List Event)
    (h : ∀ a hw, (body a hw).trace = hw.trace ++ ev a) (l : List α) (hw : Hw) :
    (l.foldl (fun st a => body a st) hw).trace = hw.trace ++ (l.map ev).flatten := by
  induction l generalizing hw with
  | nil => simp
  | cons a t ih => simp [ih, h, List.append_assoc]

theorem forUpTo_trace (n : Nat) (body : Nat → Hw → Hw) (ev : Nat → List Event)
    (h : ∀ i hw, (body i hw).trace = hw.trace ++ ev i) (hw : Hw) :
    (forUpTo n body hw).trace = hw.trace ++ ((List.range n).map ev).flatten :=
  foldl_trace body ev h (List.range n) hw

theorem runSteps_trace (cosf : ℚ → ℚ) (mask : Nat) (l : List Nat) (hw : Hw) :
    (runSteps cosf mask l hw).trace = hw.trace ++ (l.map (stepEvents cosf mask)).flatten :=
  foldl_trace (breathe_step cosf mask) (stepEvents cosf mask) (breathe_step_trace cosf mask) l hw

theorem runSteps_duty (cosf : ℚ → ℚ) (mask : Nat) (l : List Nat) (hw : Hw) (ch : Nat)
    (hch : NUM_LEDS ≤ ch) : (runSteps cosf mask l hw).duty ch = hw.duty ch := by
  unfold runSteps
  induction l generalizing hw with
  | nil => rfl
  | cons a t ih => rw [List.foldl_cons, ih, breathe_step_duty, if_neg (by omega)]

theorem runSteps_append (cosf : ℚ → ℚ) (mask : Nat) (l₁ l₂ : List Nat) (hw : Hw) :
    runSteps cosf mask (l₁ ++ l₂) hw = runSteps cosf mask l₂ (runSteps cosf mask l₁ hw) := by
  simp [runSteps, List.foldl_append]

theorem runSteps_cons (cosf : ℚ → ℚ) (mask s : Nat) (l : List Nat) (hw : Hw) :
    runSteps cosf mask (s :: l) hw = runSteps cosf mask l (breathe_step cosf mask s hw) := rfl

theorem breathe_once_trace (cosf : ℚ → ℚ) (mask : Nat) (hw : Hw) :
    (breathe_once cosf mask hw).trace = hw.trace ++ breatheEvents cosf mask := by
  unfold breathe_once
  simp only [leds_all_off_trace, runSteps_trace, Hw.emit, breatheEvents, List.append_assoc]

theorem breathe_once_duty (cosf : ℚ → ℚ) (mask : Nat) (hw : Hw) (ch : Nat) :
    (breathe_once cosf mask hw).duty ch = if ch < NUM_LEDS then 0 else hw.duty ch := by
  unfold breathe_once
  rw [leds_all_off_duty]
  by_cases hch : ch < NUM_LEDS
  · rw [if_pos hch, if_pos hch]
  · rw [if_neg hch, if_neg hch, runSteps_duty _ _ _ _ _ (by omega),
      runSteps_duty _ _ _ _ _ (by omega)]
    rfl

/-! ## Single-precision arithmetic: rounding error -/

theorem roundHalfEven_err (x : ℚ) : |(roundHalfEven x : ℚ) - x| ≤ 1 / 2 := by
  have h1 : (⌊x⌋ : ℚ) ≤ x := Int.floor_le x
  have h2 : x < (⌊x⌋ : ℚ) + 1 := Int.lt_floor_add_one x
  unfold roundHalfEven
  simp only
  rw [abs_le]
  split_ifs with a b c
  · constructor <;> linarith
  · push_cast; constructor <;> linarith
  · constructor <;> linarith
  · push_cast; constructor <;> linarith

theorem roundHalfEven_intCast (z : ℤ) : roundHalfEven (z : ℚ) = z := by
  unfold roundHalfEven
  simp

theorem fround_err (p : Nat) (q : ℚ) : |fround p q - q| ≤ |q| * 2 ^ (-(p : Int)) := by
  unfold fround
  by_cases hq : q = 0
  · simp [hq]
  · rw [if_neg hq]
    simp only
    set e := Int.log 2 |q| with he
    have hqpos : 0 < |q| := abs_pos.mpr hq
    have hu : (0 : ℚ) < 2 ^ (e + 1 - (p : Int)) := by positivity
    have hle : (2 : ℚ) ^ e ≤ |q| := by
      have := Int.zpow_log_le_self (b := 2) (by norm_num) hqpos
      simpa using this
    have hsplit : (2 : ℚ) ^ (e + 1 - (p : Int)) = 2 ^ e * 2 * 2 ^ (-(p : Int)) := by
      rw [show e + 1 - (p : Int) = e + 1 + (-(p : Int)) by ring, zpow_add₀ (by norm_num),
        zpow_add₀ (by norm_num), zpow_one]
    have herr := roundHalfEven_err (q / 2 ^ (e + 1 - (p : Int)))
    have hrw : (roundHalfEven (q / 2 ^ (e + 1 - (p : Int))) : ℚ) * 2 ^ (e + 1 - (p : Int)) - q
        = ((roundHalfEven (q / 2 ^ (e + 1 - (p : Int))) : ℚ) - q / 2 ^ (e + 1 - (p : Int)))
          * 2 ^ (e + 1 - (p : Int)) := by
      field_simp
    rw [hrw, abs_mul, abs_of_pos hu]
    have hp : (0 : ℚ) < 2 ^ (-(p : Int)) := by positivity
    calc |(roundHalfEven (q / 2 ^ (e + 1 - (p : Int))) : ℚ) - q / 2 ^ (e + 1 - (p : Int))|
          * 2 ^ (e + 1 - (p : Int))
        ≤ 1 / 2 * 2 ^ (e + 1 - (p : Int)) := by
          exact mul_le_mul_of_nonneg_right herr hu.le
      _ = 2 ^ e * 2 ^ (-(p : Int)) := by rw [hsplit]; ring
      _ ≤ |q| * 2 ^ (-(p : Int)) := mul_le_mul_of_nonneg_right hle hp.le

theorem fround_exact (p : Nat) (m k : ℤ) (hm : |m| < 2 ^ p) :
    fround p ((m : ℚ) * 2 ^ k) = (m : ℚ) * 2 ^ k := by
  unfold fround
  by_cases hq : (m : ℚ) * 2 ^ k = 0
  · rw [if_pos hq, hq]
  · rw [if_neg hq]
    simp only
    set q : ℚ := (m : ℚ) * 2 ^ k with hqdef
    set e := Int.log 2 |q| with he
    have hqpos : 0 < |q| := abs_pos.mpr hq
    have hle : (2 : ℚ) ^ e ≤ |q| := by
      have := Int.zpow_log_le_self (b := 2) (by norm_num) hqpos
      simpa using this
    have hlt : |q| < (2 : ℚ) ^ ((p : Int) + k) := by
      rw [hqdef, abs_mul, abs_of_pos (by positivity : (0 : ℚ) < 2 ^ k), zpow_add₀ (by norm_num)]
      apply mul_lt_mul_of_pos_right _ (by positivity)
      have : ((|m| : ℤ) : ℚ) < ((2 ^ p : ℤ) : ℚ) := by exact_mod_cast hm
      simpa using this
    have hek : e < (p : Int) + k := by
      have := lt_of_le_of_lt hle hlt
      exact (zpow_lt_zpow_iff_right₀ (by norm_num : (1 : ℚ) < 2)).1 this
    obtain ⟨n, hn⟩ : ∃ n : ℕ, k - (e + 1 - (p : Int)) = n := ⟨(k - (e + 1 - (p : Int))).toNat, by omega⟩
    have hdiv : q / 2 ^ (e + 1 - (p : Int)) = ((m * 2 ^ n : ℤ) : ℚ) := by
      rw [hqdef, mul_div_assoc, ← zpow_sub₀ (by norm_num), hn]
      push_cast
      rw [zpow_natCast]
    rw [hdiv, roundHalfEven_intCast]
    push_cast
    rw [mul_assoc, ← zpow_natCast, ← zpow_add₀ (by norm_num), ← hn]
    congr 2
    ring

theorem f32_err (q : ℚ) : |f32 q - q| ≤ |q| / 2 ^ 24 := by
  have h := fround_err 24 q
  have e : (2 : ℚ) ^ (-((24 : ℕ) : ℤ)) = 1 / 2 ^ 24 := by norm_num [zpow_neg]
  rw [e] at h
  unfold f32
  linarith [h, (mul_one_div |q| ((2:ℚ)^24))]

theorem f32_natCast (n : Nat) (h : n < 2 ^ 24) : f32 (n : ℚ) = n := by
  have := fround_exact 24 (n : ℤ) 0 (by rw [abs_of_nonneg (by positivity)]; exact_mod_cast h)
  simpa [f32] using this

theorem fround_eval (p : Nat) (q : ℚ) (e n : ℤ) (hlo : (2 : ℚ) ^ e ≤ |q|)
    (hhi : |q| < (2 : ℚ) ^ (e + 1)) (hn : roundHalfEven (q / 2 ^ (e + 1 - (p : Int))) = n) :
    fround p q = (n : ℚ) * 2 ^ (e + 1 - (p : Int)) := by
  have hpos : 0 < |q| := lt_of_lt_of_le (by positivity) hlo
  have hq : q ≠ 0 := abs_pos.mp hpos
  have hlog : Int.log 2 |q| = e := by
    apply le_antisymm
    · have h1 := (Int.lt_zpow_iff_log_lt (b := 2) (by norm_num) hpos (x := e + 1)).1
        (by simpa using hhi)
      omega
    · exact (Int.zpow_le_iff_le_log (b := 2) (by norm_num) hpos (x := e)).1 (by simpa using hlo)
  unfold fround
  rw [if_neg hq]
  simp only [hlog, hn]

theorem roundHalfEven_eval (x : ℚ) (n : ℤ) (h1 : (n : ℚ) - 1 / 2 < x) (h2 : x < (n : ℚ) + 1 / 2) :
    roundHalfEven x = n := by
  unfold roundHalfEven
  simp only
  by_cases hx : (n : ℚ) ≤ x
  · have hf : ⌊x⌋ = n := by
      rw [Int.floor_eq_iff]; constructor <;> linarith
    rw [hf, if_pos (by linarith)]
  · push_neg at hx
    have hf : ⌊x⌋ = n - 1 := by
      rw [Int.floor_eq_iff]; push_cast; constructor <;> linarith
    rw [hf]
    push_cast
    rw [if_neg (by linarith), if_pos (by linarith)]
    ring

/-- The model's `M_PI` is the binary64 value `0x400921FB54442D18`. -/
theorem M_PI_eq : M_PI = 884279719003555 / 2 ^ 48 := by
  unfold M_PI f64
  rw [fround_eval 53 _ 1 7074237752028440 (by rw [abs_of_pos (by norm_num)]; norm_num)
    (by rw [abs_of_pos (by norm_num)]; norm_num)
    (roundHalfEven_eval _ _ (by norm_num [zpow_neg]) (by norm_num [zpow_neg]))]
  norm_num [zpow_neg]

/-- The model's `(float)M_PI` is the binary32 value `0x40490FDB`. -/
theorem f32_M_PI_eq : f32 M_PI = 13176795 / 2 ^ 22 := by
  rw [M_PI_eq]
  unfold f32
  rw [fround_eval 24 _ 1 13176795 (by rw [abs_of_pos (by norm_num)]; norm_num)
    (by rw [abs_of_pos (by norm_num)]; norm_num)
    (roundHalfEven_eval _ _ (by norm_num [zpow_neg]) (by norm_num [zpow_neg]))]
  norm_num [zpow_neg]

theorem cosfIdeal_accurate : CosfAccurate cosfIdeal := by
  intro x
  unfold cosfIdeal
  have h := abs_sub_round (Real.cos (x : ℝ) * 2 ^ 24)
  rw [abs_le] at h
  push_cast
  rw [abs_le]
  constructor
  · rw [le_sub_iff_add_le, le_div_iff₀ (by positivity)]
    nlinarith [h.1, h.2]
  · rw [sub_le_iff_le_add, div_le_iff₀ (by positivity)]
    nlinarith [h.1, h.2]

theorem abs_cos_sub_cos_le (a b : ℝ) : |Real.cos a - Real.cos b| ≤ |a - b| := by
  rw [Real.cos_sub_cos, abs_mul, abs_mul]
  have h1 : |Real.sin ((a + b) / 2)| ≤ 1 := Real.abs_sin_le_one _
  have h2 : |Real.sin ((a - b) / 2)| ≤ |(a - b) / 2| := Real.abs_sin_le_abs
  have h3 : |(a - b) / 2| = |a - b| / 2 := by rw [abs_div]; norm_num
  have h4 : (0 : ℝ) ≤ |Real.sin ((a - b) / 2)| := abs_nonneg _
  have h5 : (0 : ℝ) ≤ |Real.sin ((a + b) / 2)| := abs_nonneg _
  have h6 : |(-2 : ℝ)| = 2 := by norm_num
  rw [h6]
  nlinarith

theorem f32_err_real (q : ℚ) : |((f32 q : ℚ) : ℝ) - (q : ℝ)| ≤ |(q : ℝ)| / 2 ^ 24 := by
  have h := f32_err q
  exact_mod_cast h

theorem f32_to_u32_bounds (p : ℚ) (h1 : -1 < p) (h2 : p < 2 ^ 32) :
    ((f32_to_u32 p : ℕ) : ℚ) ≤ max p 0 ∧ p - 1 < ((f32_to_u32 p : ℕ) : ℚ) := by
  unfold f32_to_u32
  by_cases hp : 0 ≤ p
  · rw [if_pos hp]
    have hf0 : 0 ≤ ⌊p⌋ := Int.floor_nonneg.mpr hp
    have hfl : (⌊p⌋ : ℚ) ≤ p := Int.floor_le p
    have hfu : p < (⌊p⌋ : ℚ) + 1 := Int.lt_floor_add_one p
    have hlt : ⌊p⌋ < 2 ^ 32 := by
      have : (⌊p⌋ : ℚ) < ((2 ^ 32 : ℤ) : ℚ) := by push_cast; linarith
      exact_mod_cast this
    have hmod : ⌊p⌋.toNat % 2 ^ 32 = ⌊p⌋.toNat := Nat.mod_eq_of_lt (by omega)
    rw [hmod]
    have hcast : ((⌊p⌋.toNat : ℕ) : ℚ) = (⌊p⌋ : ℚ) := by
      have : ((⌊p⌋.toNat : ℕ) : ℤ) = ⌊p⌋ := Int.toNat_of_nonneg hf0
      exact_mod_cast this
    rw [hcast, max_eq_left hp]
    constructor <;> linarith
  · rw [if_neg hp]
    push_neg at hp
    have hc : ⌈p⌉ = 0 := by
      rw [Int.ceil_eq_iff]
      constructor <;> push_cast <;> linarith
    rw [hc]
    simp only [Int.toNat_zero, Nat.zero_mod, Nat.cast_zero]
    rw [max_eq_right hp.le]
    constructor <;> linarith

theorem f32_close (q : ℚ) (M : ℝ) (hM : |(q : ℝ)| ≤ M) :
    |((f32 q : ℚ) : ℝ) - (q : ℝ)| ≤ M / 2 ^ 24 := by
  have h := f32_err_real q
  have : |(q : ℝ)| / 2 ^ 24 ≤ M / 2 ^ 24 := by
    apply div_le_div_of_nonneg_right hM (by positivity)
  linarith

theorem M_PI_bounds : (3.14159265 : ℚ) ≤ M_PI ∧ M_PI ≤ 3.14159266 := by
  have h := fround_err 53 3.14159265358979323846
  rw [abs_le, abs_of_pos (by norm_num)] at h
  have e : (2 : ℚ) ^ (-((53 : ℕ) : ℤ)) = 1 / 2 ^ 53 := by norm_num [zpow_neg]
  rw [e] at h
  unfold M_PI f64
  constructor
  · have := h.1
    norm_num at this ⊢
    linarith
  · have := h.2
    norm_num at this ⊢
    linarith

theorem f32_M_PI_near : |((f32 M_PI : ℚ) : ℝ) - Real.pi| ≤ 1 / 2 ^ 22 := by
  have hb := M_PI_bounds
  have h := f32_err M_PI
  have hM : |M_PI| = M_PI := abs_of_pos (by linarith [hb.1])
  rw [hM, abs_le] at h
  have h1 : (314159246 / 100000000 : ℚ) ≤ f32 M_PI := by
    have := h.1
    have hb2 := hb.2
    have hb1 := hb.1
    norm_num at this hb1 hb2 ⊢
    linarith
  have h2 : f32 M_PI ≤ (314159285 / 100000000 : ℚ) := by
    have := h.2
    have hb2 := hb.2
    have hb1 := hb.1
    norm_num at this hb1 hb2 ⊢
    linarith
  have r1 : (314159246 / 100000000 : ℝ) ≤ ((f32 M_PI : ℚ) : ℝ) := by
    have := (Rat.cast_le (K := ℝ)).2 h1
    push_cast at this
    exact this
  have r2 : ((f32 M_PI : ℚ) : ℝ) ≤ (314159285 / 100000000 : ℝ) := by
    have := (Rat.cast_le (K := ℝ)).2 h2
    push_cast at this
    exact this
  have p1 := Real.pi_gt_d6
  have p2 := Real.pi_gt_d20
  have p3 := Real.pi_lt_d20
  rw [abs_le]
  constructor <;> norm_num at r1 r2 p2 p3 ⊢ <;> linarith

/-! ## The computed duty and the brightness curve -/

theorem breath_phase_exact (s : ℕ) (hs : s ≤ BREATH_STEPS) :
    f32 (f32 (s : ℚ) / f32 (BREATH_STEPS : ℚ)) = (s : ℚ) / 64 := by
  unfold BREATH_STEPS at hs ⊢
  rw [f32_natCast s (by omega), f32_natCast 64 (by norm_num)]
  have h := fround_exact 24 (s : ℤ) (-6) (by
    rw [abs_of_nonneg (by positivity)]
    have : (s : ℤ) ≤ 64 := by exact_mod_cast hs
    omega)
  have e : ((s : ℤ) : ℚ) * 2 ^ (-6 : ℤ) = (s : ℚ) / ((64 : ℕ) : ℚ) := by
    norm_num [zpow_neg]
    ring
  rw [e] at h
  simpa [f32] using h

theorem f32_DUTY_MAX : f32 (DUTY_MAX : ℚ) = 1023 := by
  have h : DUTY_MAX = 1023 := by decide
  rw [h, f32_natCast 1023 (by norm_num)]
  norm_num

theorem real_chain (C c t b p : ℝ) (hC1 : -1 ≤ C) (hC2 : C ≤ 1)
    (hc : |c - C| ≤ 2.8 / 2 ^ 22)
    (ht : |1 - c| ≤ 2.01 → |t - (1 - c)| ≤ 2.01 / 2 ^ 24)
    (hb : |1 / 2 * t| ≤ 1.01 → |b - 1 / 2 * t| ≤ 1.01 / 2 ^ 24)
    (hp : |b * 1023| ≤ 1034 → |p - b * 1023| ≤ 1034 / 2 ^ 24) :
    |p - 1023 * ((1 - C) / 2)| ≤ 1 / 1024 := by
  rw [abs_le] at hc
  have h1 : |1 - c| ≤ 2.01 := by
    rw [abs_le]; constructor <;> norm_num at hc ⊢ <;> linarith [hc.1, hc.2]
  have ht2 := ht h1
  rw [abs_le] at ht2
  have h2 : |1 / 2 * t| ≤ 1.01 := by
    rw [abs_le]; constructor <;> norm_num at hc ht2 ⊢ <;> linarith [hc.1, hc.2, ht2.1, ht2.2]
  have hb2 := hb h2
  rw [abs_le] at hb2
  have h3 : |b * 1023| ≤ 1034 := by
    rw [abs_le]
    constructor <;> norm_num at hc ht2 hb2 ⊢ <;>
      linarith [hc.1, hc.2, ht2.1, ht2.2, hb2.1, hb2.2]
  have hp2 := hp h3
  rw [abs_le] at hp2 ⊢
  constructor <;> norm_num at hc ht2 hb2 hp2 ⊢ <;>
    linarith [hc.1, hc.2, ht2.1, ht2.2, hb2.1, hb2.2, hp2.1, hp2.2]

theorem float_chain (c : ℚ) (C : ℝ) (hC1 : -1 ≤ C) (hC2 : C ≤ 1)
    (hc : |(c : ℝ) - C| ≤ 2.8 / 2 ^ 22) :
    |((f32 (f32 (1 / 2 * f32 (1 - c)) * 1023) : ℚ) : ℝ) - 1023 * ((1 - C) / 2)| ≤ 1 / 1024 := by
  apply real_chain C (c : ℝ) ((f32 (1 - c) : ℚ) : ℝ) ((f32 (1 / 2 * f32 (1 - c)) : ℚ) : ℝ) _
    hC1 hC2 hc
  · intro h
    have := f32_close (1 - c) 2.01 (by push_cast; exact h)
    push_cast at this
    exact this
  · intro h
    have := f32_close (1 / 2 * f32 (1 - c)) 1.01 (by push_cast; exact h)
    push_cast at this
    exact this
  · intro h
    have := f32_close (f32 (1 / 2 * f32 (1 - c)) * 1023) 1034 (by push_cast; exact h)
    push_cast at this
    exact this

theorem breath_arg_near (s : ℕ) (hs : s ≤ BREATH_STEPS) :
    |((f32 (f32 M_PI * ((s : ℚ) / 64)) : ℚ) : ℝ) - Real.pi * ((s : ℝ) / 64)| ≤ 1.8 / 2 ^ 22 := by
  have hs64 : (s : ℝ) ≤ 64 := by
    have : s ≤ 64 := hs
    exact_mod_cast this
  have hs0 : (0 : ℝ) ≤ (s : ℝ) := by positivity
  have hP := f32_M_PI_near
  rw [abs_le] at hP
  have hpi1 := Real.pi_gt_three
  have hpi2 := Real.pi_lt_d2
  have hx0 : (0 : ℝ) ≤ (s : ℝ) / 64 := by positivity
  have hx1 : (s : ℝ) / 64 ≤ 1 := by linarith
  have hPx : |((f32 M_PI * ((s : ℚ) / 64) : ℚ) : ℝ)| ≤ 3.2 := by
    push_cast
    generalize ((f32 M_PI : ℚ) : ℝ) = P at hP ⊢
    generalize (s : ℝ) / 64 = x at hx0 hx1 ⊢
    rw [abs_le]
    constructor <;> nlinarith [hP.1, hP.2]
  have ha := f32_close (f32 M_PI * ((s : ℚ) / 64)) 3.2 hPx
  generalize ((f32 (f32 M_PI * ((s : ℚ) / 64)) : ℚ) : ℝ) = a at ha ⊢
  push_cast at ha
  generalize ((f32 M_PI : ℚ) : ℝ) = P at hP ha ⊢
  generalize (s : ℝ) / 64 = x at hx0 hx1 ha ⊢
  rw [abs_le] at ha ⊢
  constructor <;> nlinarith [hP.1, hP.2, ha.1, ha.2]

theorem breath_value_near_curve (cosf : ℚ → ℚ) (hc : CosfAccurate cosf) (s : ℕ)
    (hs : s ≤ BREATH_STEPS) :
    |((breath_value cosf s : ℚ) : ℝ) - 1023 * curve ((s : ℝ) / 64)| ≤ 1 / 1024 := by
  unfold breath_value
  simp only
  rw [breath_phase_exact s hs, f32_DUTY_MAX]
  have hax := breath_arg_near s hs
  have hcos := abs_cos_sub_cos_le ((f32 (f32 M_PI * ((s : ℚ) / 64)) : ℚ) : ℝ)
    (Real.pi * ((s : ℝ) / 64))
  have hca := hc (f32 (f32 M_PI * ((s : ℚ) / 64)))
  have hcurve : curve ((s : ℝ) / 64) = (1 - Real.cos (Real.pi * ((s : ℝ) / 64))) / 2 := by
    unfold curve
    norm_num
    ring
  rw [hcurve]
  apply float_chain _ _ (Real.neg_one_le_cos _) (Real.cos_le_one _)
  have := abs_sub_le ((cosf (f32 (f32 M_PI * ((s : ℚ) / 64))) : ℚ) : ℝ)
    (Real.cos ((f32 (f32 M_PI * ((s : ℚ) / 64)) : ℚ) : ℝ)) (Real.cos (Real.pi * ((s : ℝ) / 64)))
  norm_num at hax hca ⊢
  linarith

theorem curve_eq (p : ℝ) : curve p = (1 - Real.cos (Real.pi * p)) / 2 := by
  unfold curve
  norm_num
  ring

theorem curve_nonneg (p : ℝ) : 0 ≤ curve p := by
  rw [curve_eq]
  linarith [Real.cos_le_one (Real.pi * p)]

theorem curve_le_one (p : ℝ) : curve p ≤ 1 := by
  rw [curve_eq]
  linarith [Real.neg_one_le_cos (Real.pi * p)]

theorem curve_zero : curve 0 = 0 := by
  rw [curve_eq]
  simp

theorem curve_one : curve 1 = 1 := by
  rw [curve_eq]
  simp

theorem curve_half : curve (1 / 2) = 1 / 2 := by
  rw [curve_eq]
  have : Real.pi * (1 / 2) = Real.pi / 2 := by ring
  rw [this, Real.cos_pi_div_two]
  norm_num

theorem curve_mono (p q : ℝ) (hp : 0 ≤ p) (hq : q ≤ 1) (hpq : p ≤ q) : curve p ≤ curve q := by
  rw [curve_eq, curve_eq]
  have hpi := Real.pi_pos
  have h := Real.cos_le_cos_of_nonneg_of_le_pi (x := Real.pi * p) (y := Real.pi * q)
    (by positivity) (by nlinarith) (by nlinarith)
  linarith

theorem breath_duty_eq (cosf : ℚ → ℚ) (s : ℕ) :
    breath_duty cosf s = f32_to_u32 (breath_value cosf s) := rfl

theorem breath_duty_bounds (cosf : ℚ → ℚ) (hc : CosfAccurate cosf) (s : ℕ)
    (hs : s ≤ BREATH_STEPS) :
    1023 * curve ((s : ℝ) / 64) - 1 - 1 / 1024 < (breath_duty cosf s : ℝ)
      ∧ (breath_duty cosf s : ℝ) ≤ 1023 * curve ((s : ℝ) / 64) + 1 / 1024 := by
  have h := breath_value_near_curve cosf hc s hs
  have c0 := curve_nonneg ((s : ℝ) / 64)
  have c1 := curve_le_one ((s : ℝ) / 64)
  rw [breath_duty_eq]
  generalize breath_value cosf s = p at h ⊢
  generalize curve ((s : ℝ) / 64) = v at h c0 c1 ⊢
  rw [abs_le] at h
  have hp1 : -1 < p := by
    have : ((-1 : ℚ) : ℝ) < (p : ℝ) := by push_cast; linarith [h.1]
    exact_mod_cast this
  have hp2 : p < 2 ^ 32 := by
    have : (p : ℝ) < ((2 ^ 32 : ℚ) : ℝ) := by push_cast; linarith [h.2]
    exact_mod_cast this
  obtain ⟨b1, b2⟩ := f32_to_u32_bounds p hp1 hp2
  have r1 : ((f32_to_u32 p : ℕ) : ℝ) ≤ max (p : ℝ) 0 := by
    have := (Rat.cast_le (K := ℝ)).2 b1
    push_cast at this
    exact this
  have r2 : (p : ℝ) - 1 < ((f32_to_u32 p : ℕ) : ℝ) := by
    have := (Rat.cast_lt (K := ℝ)).2 b2
    push_cast at this
    exact this
  constructor
  · linarith [h.1]
  · rcases le_total (p : ℝ) 0 with hp | hp
    · rw [max_eq_right hp] at r1
      linarith
    · rw [max_eq_left hp] at r1
      linarith [h.2]

theorem breath_duty_le_max (cosf : ℚ → ℚ) (hc : CosfAccurate cosf) (s : ℕ)
    (hs : s ≤ BREATH_STEPS) : breath_duty cosf s ≤ DUTY_MAX := by
  have h := (breath_duty_bounds cosf hc s hs).2
  have c1 := curve_le_one ((s : ℝ) / 64)
  have : (breath_duty cosf s : ℝ) < 1024 := by linarith
  have h2 : breath_duty cosf s < 1024 := by exact_mod_cast this
  have h3 : DUTY_MAX = 1023 := by decide
  omega

theorem breath_duty_first (cosf : ℚ → ℚ) (hc : CosfAccurate cosf) : breath_duty cosf 0 = 0 := by
  have h := (breath_duty_bounds cosf hc 0 (by decide)).2
  simp only [Nat.cast_zero, zero_div, curve_zero, mul_zero, zero_add] at h
  have : (breath_duty cosf 0 : ℝ) < 1 := by linarith
  have h2 : breath_duty cosf 0 < 1 := by exact_mod_cast this
  omega

theorem breath_duty_peak (cosf : ℚ → ℚ) (hc : CosfAccurate cosf) :
    1022 ≤ breath_duty cosf BREATH_STEPS ∧ breath_duty cosf BREATH_STEPS ≤ 1023 := by
  have h := breath_duty_bounds cosf hc BREATH_STEPS (le_refl _)
  have e : ((BREATH_STEPS : ℕ) : ℝ) / 64 = 1 := by
    unfold BREATH_STEPS
    norm_num
  rw [e, curve_one] at h
  have h1 : (1021 : ℝ) < (breath_duty cosf BREATH_STEPS : ℝ) := by linarith [h.1]
  have h2 : (breath_duty cosf BREATH_STEPS : ℝ) < 1024 := by linarith [h.2]
  have h3 : 1021 < breath_duty cosf BREATH_STEPS := by exact_mod_cast h1
  have h4 : breath_duty cosf BREATH_STEPS < 1024 := by exact_mod_cast h2
  omega

theorem breath_duty_mid (cosf : ℚ → ℚ) (hc : CosfAccurate cosf) : breath_duty cosf 32 = 511 := by
  have h := breath_duty_bounds cosf hc 32 (by decide)
  have e : ((32 : ℕ) : ℝ) / 64 = 1 / 2 := by norm_num
  rw [e, curve_half] at h
  have h1 : (510 : ℝ) < (breath_duty cosf 32 : ℝ) := by linarith [h.1]
  have h2 : (breath_duty cosf 32 : ℝ) < 512 := by linarith [h.2]
  have h3 : 510 < breath_duty cosf 32 := by exact_mod_cast h1
  have h4 : breath_duty cosf 32 < 512 := by exact_mod_cast h2
  omega

theorem curve_step_one : 0.6 < 1023 * curve ((1 : ℝ) / 64) ∧ 1023 * curve ((1 : ℝ) / 64) < 0.65 := by
  rw [curve_eq]
  have p1 := Real.pi_gt_d2
  have p2 := Real.pi_lt_d2
  have hx1 : (0.049 : ℝ) < Real.pi * (1 / 64) := by norm_num at p1 ⊢; linarith
  have hx2 : Real.pi * (1 / 64) < (0.0493 : ℝ) := by norm_num at p2 ⊢; linarith
  generalize Real.pi * (1 / 64) = x at hx1 hx2 ⊢
  have hxa : |x| ≤ 1 := by
    rw [abs_le]; constructor <;> norm_num at hx1 hx2 ⊢ <;> linarith
  have hb := Real.cos_bound hxa
  have hx0 : 0 < x := by norm_num at hx1; linarith
  rw [abs_of_pos hx0, abs_le] at hb
  have hx4 : x ^ 4 ≤ 0.0493 ^ 4 := by
    apply pow_le_pow_left₀ hx0.le hx2.le
  have hx2l : (0.049 : ℝ) ^ 2 ≤ x ^ 2 := by
    apply pow_le_pow_left₀ (by norm_num) hx1.le
  have hx2u : x ^ 2 ≤ (0.0493 : ℝ) ^ 2 := by
    apply pow_le_pow_left₀ hx0.le hx2.le
  constructor <;> norm_num at hb hx4 hx2l hx2u ⊢ <;> nlinarith [hb.1, hb.2]

theorem breath_duty_second (cosf : ℚ → ℚ) (hc : CosfAccurate cosf) : breath_duty cosf 1 = 0 := by
  have h := (breath_duty_bounds cosf hc 1 (by decide)).2
  have hv := curve_step_one
  simp only [Nat.cast_one] at h
  have hv2 := hv.2
  norm_num at hv2
  have : (breath_duty cosf 1 : ℝ) < 1 := by linarith
  have h2 : breath_duty cosf 1 < 1 := by exact_mod_cast this
  omega

theorem round_curve_step_one : round (curve ((1 : ℝ) / 64) * 1023) = 1 := by
  have hv := curve_step_one
  rw [round_eq, Int.floor_eq_iff]
  constructor <;> norm_num at hv ⊢ <;> linarith [hv.1, hv.2]

/-! ## Intermediate states of `breathe_once` -/

theorem list_split_at {α : Type} (l : List α) (n : Nat) (h : n < l.length) :
    l = l.take n ++ l[n] :: l.drop (n + 1) := by
  rw [← List.drop_eq_getElem_cons h, List.take_append_drop]

theorem stepsUp_length : stepsUp.length = BREATH_STEPS + 1 := by
  simp [stepsUp]

theorem stepsDown_length : stepsDown.length = BREATH_STEPS + 1 := by
  simp [stepsDown]

theorem stepsUp_split (s : Nat) (hs : s ≤ BREATH_STEPS) :
    stepsUp = stepsUp.take s ++ s :: stepsUp.drop (s + 1) := by
  have hlen : s < stepsUp.length := by rw [stepsUp_length]; omega
  have h := list_split_at stepsUp s hlen
  have hget : stepsUp[s] = s := by simp [stepsUp]
  rw [hget] at h
  exact h

theorem stepsDown_split (s : Nat) (hs : s ≤ BREATH_STEPS) :
    stepsDown = stepsDown.take (BREATH_STEPS - s) ++ s :: stepsDown.drop (BREATH_STEPS - s + 1) := by
  have hlen : BREATH_STEPS - s < stepsDown.length := by rw [stepsDown_length]; omega
  have h := list_split_at stepsDown (BREATH_STEPS - s) hlen
  have hget : stepsDown[BREATH_STEPS - s] = s := by
    simp only [stepsDown, List.getElem_reverse, List.getElem_range, List.length_range]
    omega
  rw [hget] at h
  exact h

theorem breathe_once_resume_up (cosf : ℚ → ℚ) (mask : Nat) (hw : Hw) (s : Nat)
    (hs : s ≤ BREATH_STEPS) :
    breathe_once cosf mask hw
      = leds_all_off (runSteps cosf mask stepsDown (runSteps cosf mask (stepsUp.drop (s + 1))
          (vTaskDelay BREATH_STEP_DELAY_MS (afterWriteUp cosf mask hw s)))) := by
  have h : runSteps cosf mask stepsUp (hw.emit (.breathe mask))
      = runSteps cosf mask (stepsUp.drop (s + 1))
          (vTaskDelay BREATH_STEP_DELAY_MS (afterWriteUp cosf mask hw s)) := by
    conv_lhs => rw [stepsUp_split s hs]
    rw [runSteps_append, runSteps_cons]
    rfl
  unfold breathe_once
  simp only
  rw [h]

theorem breathe_once_resume_down (cosf : ℚ → ℚ) (mask : Nat) (hw : Hw) (s : Nat)
    (hs : s ≤ BREATH_STEPS) :
    breathe_once cosf mask hw
      = leds_all_off (runSteps cosf mask (stepsDown.drop (BREATH_STEPS - s + 1))
          (vTaskDelay BREATH_STEP_DELAY_MS (afterWriteDown cosf mask hw s))) := by
  have h : runSteps cosf mask stepsDown (runSteps cosf mask stepsUp (hw.emit (.breathe mask)))
      = runSteps cosf mask (stepsDown.drop (BREATH_STEPS - s + 1))
          (vTaskDelay BREATH_STEP_DELAY_MS (afterWriteDown cosf mask hw s)) := by
    conv_lhs => rw [stepsDown_split s hs]
    rw [runSteps_append, runSteps_cons]
    rfl
  unfold breathe_once
  simp only
  rw [h]

theorem LED_CHS_eq (i : Nat) : LED_CHS i = i := by
  simp [LED_CHS, LEDC_CHANNEL_BASE]

theorem afterWriteUp_duty (cosf : ℚ → ℚ) (mask : Nat) (hw : Hw) (s i : Nat) (hi : i < NUM_LEDS) :
    (afterWriteUp cosf mask hw s).duty (LED_CHS i) = groupDuty mask (breath_duty cosf s) i := by
  rw [LED_CHS_eq, afterWriteUp, leds_set_group_brightness_duty, if_pos hi]

theorem afterWriteDown_duty (cosf : ℚ → ℚ) (mask : Nat) (hw : Hw) (s i : Nat)
    (hi : i < NUM_LEDS) :
    (afterWriteDown cosf mask hw s).duty (LED_CHS i) = groupDuty mask (breath_duty cosf s) i := by
  rw [LED_CHS_eq, afterWriteDown, leds_set_group_brightness_duty, if_pos hi]

theorem groupDuty_of_le (mask duty i : Nat) (h : duty ≤ DUTY_MAX) :
    groupDuty mask duty i = if mask.testBit i then duty else 0 := by
  unfold groupDuty
  rw [Nat.min_eq_left h]

theorem groupDuty_zero_mask (duty i : Nat) : groupDuty 0 duty i = 0 := by
  simp [groupDuty]

/-! ## Start-up -/

theorem leds_pwm_init_eq (drv : LedcDriver) (hw : Hw) :
    leds_pwm_init drv hw
      = if drv.timer_config = true ∧ drv.channel_config 0 = true ∧ drv.channel_config 1 = true
          ∧ drv.channel_config 2 = true
        then some { hw with duty := Function.update (Function.update
              (Function.update hw.duty (LED_CHS 0) 0) (LED_CHS 1) 0) (LED_CHS 2) 0 }
        else none := by
  unfold leds_pwm_init
  have hr : List.range NUM_LEDS = [0, 1, 2] := rfl
  rw [hr]
  cases ht : drv.timer_config <;> cases h0 : drv.channel_config 0 <;>
    cases h1 : drv.channel_config 1 <;> cases h2 : drv.channel_config 2 <;>
    simp [ESP_ERROR_CHECK, List.foldlM, h0, h1, h2]

theorem leds_pwm_init_dark (drv : LedcDriver) (hw0 hw1 : Hw) (h : leds_pwm_init drv hw0 = some hw1)
    (i : Nat) (hi : i < NUM_LEDS) : hw1.duty (LED_CHS i) = 0 := by
  rw [leds_pwm_init_eq] at h
  split_ifs at h
  have h' := Option.some.inj h
  subst h'
  unfold NUM_LEDS at hi
  simp only [LED_CHS_eq, Function.update_apply]
  split_ifs <;> first | rfl | omega

/-! ## The duty bound is an invariant -/

theorem ledc_write_bounded (ch duty : Nat) (hw : Hw) (hd : duty ≤ DUTY_MAX)
    (h : DutiesBounded hw) : DutiesBounded (ledc_write ch duty hw) := by
  intro i hi
  simp only [ledc_write, Function.update_apply]
  split_ifs
  · exact hd
  · exact h i hi

theorem led_set_brightness_idx_bounded (idx : Int) (duty : Nat) (hw : Hw)
    (h : DutiesBounded hw) : DutiesBounded (led_set_brightness_idx idx duty hw) := by
  unfold led_set_brightness_idx
  split_ifs with h1 h2
  · exact h
  · exact ledc_write_bounded _ _ _ (le_refl _) h
  · exact ledc_write_bounded _ _ _ (by omega) h

theorem foldl_bounded {α : Type} (body : α → Hw → Hw)
    (hb : ∀ a hw, DutiesBounded hw → DutiesBounded (body a hw)) (l : List α) (hw : Hw)
    (h : DutiesBounded hw) : DutiesBounded (l.foldl (fun st a => body a st) hw) := by
  induction l generalizing hw with
  | nil => exact h
  | cons a t ih => exact ih _ (hb a hw h)

theorem forUpTo_bounded (n : Nat) (body : Nat → Hw → Hw)
    (hb : ∀ a hw, DutiesBounded hw → DutiesBounded (body a hw)) (hw : Hw)
    (h : DutiesBounded hw) : DutiesBounded (forUpTo n body hw) :=
  foldl_bounded body hb (List.range n) hw h

theorem forDownTo_bounded (start lo : Int) (body : Int → Hw → Hw)
    (hb : ∀ a hw, DutiesBounded hw → DutiesBounded (body a hw)) (hw : Hw)
    (h : DutiesBounded hw) : DutiesBounded (forDownTo start lo body hw) :=
  foldl_bounded body hb (downIndices start lo) hw h

theorem emit_bounded (e : Event) (hw : Hw) (h : DutiesBounded hw) : DutiesBounded (hw.emit e) :=
  h

theorem leds_all_off_bounded (hw : Hw) (h : DutiesBounded hw) : DutiesBounded (leds_all_off hw) :=
  forUpTo_bounded _ _ (fun a st hst => led_set_brightness_idx_bounded (a : Int) 0 st hst) hw h

theorem leds_set_group_brightness_bounded (mask duty : Nat) (hw : Hw) (h : DutiesBounded hw) :
    DutiesBounded (leds_set_group_brightness mask duty hw) := by
  apply forUpTo_bounded _ _ _ hw h
  intro a st hst
  split_ifs
  · exact led_set_brightness_idx_bounded _ _ _ hst
  · exact led_set_brightness_idx_bounded _ _ _ hst

theorem breathe_once_bounded (cosf : ℚ → ℚ) (mask : Nat) (hw : Hw) (h : DutiesBounded hw) :
    DutiesBounded (breathe_once cosf mask hw) := by
  have hstep : ∀ (s : Nat) (st : Hw), DutiesBounded st →
      DutiesBounded (breathe_step cosf mask s st) := fun s st hst =>
    emit_bounded _ _ (leds_set_group_brightness_bounded mask _ st hst)
  unfold breathe_once
  apply leds_all_off_bounded
  apply foldl_bounded _ hstep
  apply foldl_bounded _ hstep
  exact emit_bounded _ _ h

theorem pattern_knight_rider_breath_bounded (cosf : ℚ → ℚ) (cycles : Int) (hw : Hw)
    (h : DutiesBounded hw) : DutiesBounded (pattern_knight_rider_breath cosf cycles hw) := by
  unfold pattern_knight_rider_breath
  apply leds_all_off_bounded
  apply forUpTo_bounded _ _ _ _ (emit_bounded _ _ h)
  intro _ st hst
  apply forDownTo_bounded _ _ _ (fun a st2 hst2 => breathe_once_bounded cosf _ st2 hst2)
  exact forUpTo_bounded _ _ (fun a st2 hst2 => breathe_once_bounded cosf _ st2 hst2) st hst

theorem pattern_binary_counter_breath_bounded (cosf : ℚ → ℚ) (rounds : Int) (hw : Hw)
    (h : DutiesBounded hw) : DutiesBounded (pattern_binary_counter_breath cosf rounds hw) := by
  unfold pattern_binary_counter_breath
  apply leds_all_off_bounded
  apply forUpTo_bounded _ _ _ _ (emit_bounded _ _ h)
  intro _ st hst
  exact forUpTo_bounded _ _ (fun a st2 hst2 => breathe_once_bounded cosf _ st2 hst2) st hst

theorem pattern_random_breath_bounded (cosf : ℚ → ℚ) (esp_random : Nat → Nat) (flashes : Int)
    (hw : Hw) (h : DutiesBounded hw) :
    DutiesBounded (pattern_random_breath cosf esp_random flashes hw) := by
  unfold pattern_random_breath
  apply leds_all_off_bounded
  exact forUpTo_bounded _ _ (fun a st2 hst2 => breathe_once_bounded cosf _ st2 hst2) _
    (emit_bounded _ _ h)

theorem Op_run_bounded (cosf : ℚ → ℚ) (op : Op) (hw : Hw) (h : DutiesBounded hw) :
    DutiesBounded (op.run cosf hw) := by
  cases op with
  | setIdx idx duty => exact led_set_brightness_idx_bounded idx duty hw h
  | allOff => exact leds_all_off_bounded hw h
  | setGroup mask duty => exact leds_set_group_brightness_bounded mask duty hw h
  | delay ms => exact emit_bounded _ hw h
  | breathe mask => exact breathe_once_bounded cosf mask hw h
  | knightRider cycles => exact pattern_knight_rider_breath_bounded cosf cycles hw h
  | binaryCounter rounds => exact pattern_binary_counter_breath_bounded cosf rounds hw h
  | random esp_random flashes => exact pattern_random_breath_bounded cosf esp_random flashes hw h

/-! ## Traces of the patterns -/

theorem filterMap_flatten_map {α β γ : Type} (f : β → Option γ) (g : α → List β) (l : List α) :
    ((l.map g).flatten).filterMap f = (l.map (fun a => (g a).filterMap f)).flatten := by
  induction l with
  | nil => rfl
  | cons a t ih => simp [List.filterMap_append, ih]

theorem flatten_map_nil {α β : Type} (l : List α) :
    (l.map (fun _ => ([] : List β))).flatten = [] := by
  induction l with
  | nil => rfl
  | cons a t ih => simp

theorem flatten_map_singleton {α β : Type} (l : List α) (b : β) :
    (l.map (fun _ => [b])).flatten = List.replicate l.length b := by
  induction l with
  | nil => rfl
  | cons a t ih => simp [List.replicate_succ, ih]

theorem map_const_range {β : Type} (n : Nat) (b : β) :
    (List.range n).map (fun _ => b) = List.replicate n b := by
  induction n with
  | zero => rfl
  | succ k ih => rw [List.range_succ, List.map_append, ih, List.replicate_succ']; rfl

theorem breatheMasks_append (a b : List Event) :
    breatheMasks (a ++ b) = breatheMasks a ++ breatheMasks b := by
  simp [breatheMasks, List.filterMap_append]

theorem delaysOf_append (a b : List Event) : delaysOf (a ++ b) = delaysOf a ++ delaysOf b := by
  simp [delaysOf, List.filterMap_append]

theorem breatheMasks_steps (cosf : ℚ → ℚ) (mask : Nat) (l : List Nat) :
    breatheMasks ((l.map (stepEvents cosf mask)).flatten) = [] := by
  unfold breatheMasks
  rw [filterMap_flatten_map]
  exact flatten_map_nil l

theorem delaysOf_steps (cosf : ℚ → ℚ) (mask : Nat) (l : List Nat) :
    delaysOf ((l.map (stepEvents cosf mask)).flatten)
      = List.replicate l.length BREATH_STEP_DELAY_MS := by
  unfold delaysOf
  rw [filterMap_flatten_map]
  exact flatten_map_singleton l BREATH_STEP_DELAY_MS

theorem breatheMasks_breatheEvents (cosf : ℚ → ℚ) (mask : Nat) :
    breatheMasks (breatheEvents cosf mask) = [mask] := by
  unfold breatheEvents
  rw [breatheMasks_append, breatheMasks_append, breatheMasks_append, breatheMasks_steps,
    breatheMasks_steps]
  rfl

theorem delaysOf_breatheEvents (cosf : ℚ → ℚ) (mask : Nat) :
    delaysOf (breatheEvents cosf mask) = List.replicate 130 15 := by
  unfold breatheEvents
  rw [delaysOf_append, delaysOf_append, delaysOf_append, delaysOf_steps, delaysOf_steps,
    stepsUp_length, stepsDown_length]
  rfl

theorem knight_rider_cycle_eq (cosf : ℚ → ℚ) (h : Hw) :
    forDownTo (toI32 (subU32 NUM_LEDS 2)) 1 (fun i h => breathe_once cosf (bitMask i.toNat) h)
        (forUpTo NUM_LEDS (fun i h => breathe_once cosf (bitMask i) h) h)
      = breathe_once cosf 2 (breathe_once cosf 4 (breathe_once cosf 2 (breathe_once cosf 1 h))) := by
  have hd : downIndices (toI32 (subU32 NUM_LEDS 2)) 1 = [1] := by decide
  rw [forUpTo_three]
  unfold forDownTo
  rw [hd]
  rfl

theorem knight_rider_cycle_trace (cosf : ℚ → ℚ) (h : Hw) :
    (forDownTo (toI32 (subU32 NUM_LEDS 2)) 1 (fun i h => breathe_once cosf (bitMask i.toNat) h)
        (forUpTo NUM_LEDS (fun i h => breathe_once cosf (bitMask i) h) h)).trace
      = h.trace ++ (breatheEvents cosf 1 ++ breatheEvents cosf 2 ++ breatheEvents cosf 4
          ++ breatheEvents cosf 2) := by
  rw [knight_rider_cycle_eq]
  simp only [breathe_once_trace, List.append_assoc]

theorem pattern_knight_rider_breath_trace (cosf : ℚ → ℚ) (cycles : Int) (hw : Hw) :
    (pattern_knight_rider_breath cosf cycles hw).trace
      = hw.trace ++ [Event.log "Pattern: Knight Rider (breath)"]
        ++ (List.replicate cycles.toNat (breatheEvents cosf 1 ++ breatheEvents cosf 2
              ++ breatheEvents cosf 4 ++ breatheEvents cosf 2)).flatten
        ++ offEvents := by
  unfold pattern_knight_rider_breath
  simp only
  rw [leds_all_off_trace,
    forUpTo_trace cycles.toNat _ (fun _ => breatheEvents cosf 1 ++ breatheEvents cosf 2
      ++ breatheEvents cosf 4 ++ breatheEvents cosf 2)
      (fun _ st => knight_rider_cycle_trace cosf st),
    map_const_range]
  rfl

theorem pattern_binary_counter_breath_trace (cosf : ℚ → ℚ) (rounds : Int) (hw : Hw) :
    (pattern_binary_counter_breath cosf rounds hw).trace
      = hw.trace ++ [Event.log "Pattern: Binary Counter (breath)"]
        ++ (List.replicate rounds.toNat
              ((List.range 8).map (breatheEvents cosf)).flatten).flatten
        ++ offEvents := by
  unfold pattern_binary_counter_breath
  simp only
  have hmax : ((1 <<< NUM_LEDS) % 2 ^ 32) % 2 ^ 8 = 8 := by decide
  rw [hmax, leds_all_off_trace,
    forUpTo_trace rounds.toNat _ (fun _ => ((List.range 8).map (breatheEvents cosf)).flatten)
      (fun _ st => forUpTo_trace 8 _ (breatheEvents cosf)
        (fun val st2 => breathe_once_trace cosf val st2) st),
    map_const_range]
  rfl

theorem pattern_random_breath_trace (cosf : ℚ → ℚ) (esp_random : Nat → Nat) (flashes : Int)
    (hw : Hw) :
    (pattern_random_breath cosf esp_random flashes hw).trace
      = hw.trace ++ [Event.log "Pattern: Random (breath)"]
        ++ ((List.range flashes.toNat).map
              (fun i => breatheEvents cosf (random_mask (esp_random i % 2 ^ 32)))).flatten
        ++ offEvents := by
  unfold pattern_random_breath
  simp only
  rw [leds_all_off_trace,
    forUpTo_trace flashes.toNat _
      (fun i => breatheEvents cosf (random_mask (esp_random i % 2 ^ 32)))
      (fun i st => breathe_once_trace cosf _ st)]
  rfl

theorem breatheMasks_replicate_flatten (n : Nat) (ev : List Event) :
    breatheMasks ((List.replicate n ev).flatten) = (List.replicate n (breatheMasks ev)).flatten := by
  induction n with
  | zero => rfl
  | succ k ih => simp [List.replicate_succ, breatheMasks_append, ih]

theorem breatheMasks_map_breatheEvents (cosf : ℚ → ℚ) (l : List Nat) :
    breatheMasks ((l.map (breatheEvents cosf)).flatten) = l := by
  induction l with
  | nil => rfl
  | cons a t ih => simp [breatheMasks_append, breatheMasks_breatheEvents, ih]

theorem breatheMasks_map_breatheEvents_comp {α : Type} (cosf : ℚ → ℚ) (f : α → Nat)
    (l : List α) :
    breatheMasks ((l.map (fun a => breatheEvents cosf (f a))).flatten) = l.map f := by
  induction l with
  | nil => rfl
  | cons a t ih => simp [breatheMasks_append, breatheMasks_breatheEvents, ih]

theorem random_mask_range (rnd : Nat) : 1 ≤ random_mask rnd ∧ random_mask rnd ≤ 7 := by
  unfold random_mask
  have h7 : (1 <<< NUM_LEDS) % 2 ^ 32 - 1 = 2 ^ 3 - 1 := by decide
  rw [h7, Nat.and_pow_two_sub_one_eq_mod]
  have h8 : rnd % 2 ^ 3 < 8 := Nat.mod_lt _ (by decide)
  have hm : rnd % 2 ^ 3 % 2 ^ 8 = rnd % 2 ^ 3 := Nat.mod_eq_of_lt (by omega)
  simp only [hm]
  have h3 : rnd % NUM_LEDS < 3 := Nat.mod_lt _ (by decide)
  split_ifs with h0
  · interval_cases (rnd % NUM_LEDS) <;> decide
  · omega

theorem random_mask_fallback (rnd : Nat) (h : rnd % 8 = 0) :
    random_mask rnd = 1 <<< (rnd % 3) ∧ rnd % 3 < 3 := by
  unfold random_mask
  have h7 : (1 <<< NUM_LEDS) % 2 ^ 32 - 1 = 2 ^ 3 - 1 := by decide
  rw [h7, Nat.and_pow_two_sub_one_eq_mod]
  have h8 : rnd % 2 ^ 3 = 0 := h
  have hn : rnd % NUM_LEDS = rnd % 3 := rfl
  simp only [h8, Nat.zero_mod, if_true, hn]
  have h3 : rnd % 3 < 3 := Nat.mod_lt _ (by decide)
  refine ⟨?_, h3⟩
  interval_cases (rnd % 3) <;> decide

/-! ## The claims -/

/-- C1: for every mask and every prior state, after `breathe_once(mask)`
returns the duty of each of the channels 0..2 is 0; and from the state left by
a successful `leds_pwm_init`, the channels are dark before and after every
`breathe_once` call of any sequence of calls. -/
theorem C1_breathe_once_ends_dark (cosf : ℚ → ℚ) (mask : Nat) (hw : Hw) :
    (∀ i, i < NUM_LEDS → (breathe_once cosf mask hw).duty (LED_CHS i) = 0)
    ∧ (∀ (drv : LedcDriver) (hw1 : Hw), leds_pwm_init drv hw = some hw1 →
        ∀ (masks : List Nat) (i : Nat), i < NUM_LEDS →
          (masks.foldl (fun h m => breathe_once cosf m h) hw1).duty (LED_CHS i) = 0) := by
  have one : ∀ (m : Nat) (st : Hw) (i : Nat), i < NUM_LEDS →
      (breathe_once cosf m st).duty (LED_CHS i) = 0 := by
    intro m st i hi
    rw [LED_CHS_eq, breathe_once_duty, if_pos hi]
  refine ⟨one mask hw, ?_⟩
  intro drv hw1 hinit masks
  have hdark : ∀ i, i < NUM_LEDS → hw1.duty (LED_CHS i) = 0 :=
    fun i hi => leds_pwm_init_dark drv hw hw1 hinit i hi
  clear hinit
  induction masks generalizing hw1 with
  | nil => exact hdark
  | cons m t ih => exact ih (breathe_once cosf m hw1) (one m hw1)

/-- Witness of C1: mask 5 from the dark state, and two calls after a
successful start-up. -/
theorem C1_breathe_once_ends_dark_witness :
    (breathe_once cosfIdeal 5 Hw.dark).duty (LED_CHS 0) = 0
    ∧ leds_pwm_init ⟨true, fun _ => true⟩ Hw.dark = some Hw.dark
    ∧ (([5, 2] : List Nat).foldl (fun h m => breathe_once cosfIdeal m h) Hw.dark).duty
        (LED_CHS 1) = 0 :=
  have hinit : leds_pwm_init ⟨true, fun _ => true⟩ Hw.dark = some Hw.dark := by
    rw [leds_pwm_init_eq]
    simp [Hw.dark, LED_CHS_eq]
  ⟨(C1_breathe_once_ends_dark cosfIdeal 5 Hw.dark).1 0 (by decide), hinit,
    (C1_breathe_once_ends_dark cosfIdeal 5 Hw.dark).2 ⟨true, fun _ => true⟩ Hw.dark hinit
      [5, 2] 1 (by decide)⟩

/-- Counterexample to C2 as stated: with an accurate `cosf`, mask `0b001`
and step 1, channel 0 is lit and holds duty 0 right after the group write,
whereas `round(curve(1/64) * 1023)` is 1. -/
theorem C2_round_counterexample :
    Nat.testBit 1 0 = true
    ∧ (afterWriteUp cosfIdeal 1 Hw.dark 1).duty (LED_CHS 0) = 0
    ∧ round (curve ((1 : ℝ) / 64) * 1023) = 1 := by
  refine ⟨rfl, ?_, round_curve_step_one⟩
  rw [afterWriteUp_duty cosfIdeal 1 Hw.dark 1 0 (by decide),
    groupDuty_of_le _ _ _ (breath_duty_le_max cosfIdeal cosfIdeal_accurate 1 (by decide)),
    breath_duty_second cosfIdeal cosfIdeal_accurate]
  rfl

/-- C2 (amended): with an accurate `cosf`, for every mask, every step `s` in
0..64 of either half and every channel `i` in 0..2, right after the group write
of step `s` (an intermediate state of `breathe_once`) channel `i` holds 0 if
bit `i` of the mask is clear and otherwise the duty `d` computed for step `s`,
which is the truncation of the single-precision product and satisfies
`1023 * curve(s/64) - 1 - 1/1024 < d ≤ 1023 * curve(s/64) + 1/1024`. -/
theorem C2_group_write_duty (cosf : ℚ → ℚ) (hc : CosfAccurate cosf) (mask : Nat) (hw : Hw)
    (s i : Nat) (hs : s ≤ BREATH_STEPS) (hi : i < NUM_LEDS) :
    (afterWriteUp cosf mask hw s).duty (LED_CHS i)
        = (if mask.testBit i then breath_duty cosf s else 0)
    ∧ (afterWriteDown cosf mask hw s).duty (LED_CHS i)
        = (if mask.testBit i then breath_duty cosf s else 0)
    ∧ breath_duty cosf s = f32_to_u32 (breath_value cosf s)
    ∧ 1023 * curve ((s : ℝ) / 64) - 1 - 1 / 1024 < (breath_duty cosf s : ℝ)
    ∧ (breath_duty cosf s : ℝ) ≤ 1023 * curve ((s : ℝ) / 64) + 1 / 1024
    ∧ breathe_once cosf mask hw
        = leds_all_off (runSteps cosf mask stepsDown (runSteps cosf mask (stepsUp.drop (s + 1))
            (vTaskDelay BREATH_STEP_DELAY_MS (afterWriteUp cosf mask hw s))))
    ∧ breathe_once cosf mask hw
        = leds_all_off (runSteps cosf mask (stepsDown.drop (BREATH_STEPS - s + 1))
            (vTaskDelay BREATH_STEP_DELAY_MS (afterWriteDown cosf mask hw s))) := by
  have hle := breath_duty_le_max cosf hc s hs
  have hb := breath_duty_bounds cosf hc s hs
  refine ⟨?_, ?_, rfl, hb.1, hb.2, breathe_once_resume_up cosf mask hw s hs,
    breathe_once_resume_down cosf mask hw s hs⟩
  · rw [afterWriteUp_duty cosf mask hw s i hi, groupDuty_of_le _ _ _ hle]
  · rw [afterWriteDown_duty cosf mask hw s i hi, groupDuty_of_le _ _ _ hle]

/-- Witness of C2 (amended): mask `0b101`, step 32, channel 2. -/
theorem C2_group_write_duty_witness :
    CosfAccurate cosfIdeal ∧ 32 ≤ BREATH_STEPS ∧ 2 < NUM_LEDS
    ∧ (afterWriteUp cosfIdeal 5 Hw.dark 32).duty (LED_CHS 2)
        = (if Nat.testBit 5 2 then breath_duty cosfIdeal 32 else 0) :=
  ⟨cosfIdeal_accurate, by decide, by decide,
    (C2_group_write_duty cosfIdeal cosfIdeal_accurate 5 Hw.dark 32 2 (by decide) (by decide)).1⟩

/-- C3: for every `cycles ≥ 0` the masks passed to `breathe_once` by
`pattern_knight_rider_breath(cycles)` are `cycles` repetitions of
`[0b001, 0b010, 0b100, 0b010]`. -/
theorem C3_knight_rider_masks (cosf : ℚ → ℚ) (cycles : Nat) (hw : Hw) :
    breatheMasks (pattern_knight_rider_breath cosf (cycles : Int) hw).trace
      = breatheMasks hw.trace
        ++ (List.replicate cycles [0b001, 0b010, 0b100, 0b010]).flatten := by
  rw [pattern_knight_rider_breath_trace, breatheMasks_append, breatheMasks_append,
    breatheMasks_append, breatheMasks_replicate_flatten, breatheMasks_append,
    breatheMasks_append, breatheMasks_append]
  simp only [breatheMasks_breatheEvents, Int.toNat_ofNat]
  have h1 : breatheMasks [Event.log "Pattern: Knight Rider (breath)"] = [] := rfl
  have h2 : breatheMasks offEvents = [] := rfl
  rw [h1, h2]
  simp

/-- C4: for every `rounds ≥ 0` the masks passed to `breathe_once` by
`pattern_binary_counter_breath(rounds)` are `rounds` repetitions of
`[0, 1, 2, 3, 4, 5, 6, 7]`. -/
theorem C4_binary_counter_masks (cosf : ℚ → ℚ) (rounds : Nat) (hw : Hw) :
    breatheMasks (pattern_binary_counter_breath cosf (rounds : Int) hw).trace
      = breatheMasks hw.trace
        ++ (List.replicate rounds [0, 1, 2, 3, 4, 5, 6, 7]).flatten := by
  rw [pattern_binary_counter_breath_trace, breatheMasks_append, breatheMasks_append,
    breatheMasks_append, breatheMasks_replicate_flatten, breatheMasks_map_breatheEvents]
  have h1 : breatheMasks [Event.log "Pattern: Binary Counter (breath)"] = [] := rfl
  have h2 : breatheMasks offEvents = [] := rfl
  have h3 : List.range 8 = [0, 1, 2, 3, 4, 5, 6, 7] := rfl
  rw [h1, h2, h3]
  simp

/-- C5: the masks that `pattern_random_breath` passes to `breathe_once` are
`random_mask` of the successive 32-bit draws; for every 32-bit draw the mask
lies in 1..7, and when the low three bits of the draw are zero it is
`1 << k` with `k = rnd % 3` in 0..2. -/
theorem C5_random_mask_nonzero (cosf : ℚ → ℚ) (esp_random : Nat → Nat) (flashes : Int)
    (hw : Hw) :
    breatheMasks (pattern_random_breath cosf esp_random flashes hw).trace
        = breatheMasks hw.trace
          ++ (List.range flashes.toNat).map (fun i => random_mask (esp_random i % 2 ^ 32))
    ∧ (∀ m ∈ (List.range flashes.toNat).map (fun i => random_mask (esp_random i % 2 ^ 32)),
        1 ≤ m ∧ m ≤ 7)
    ∧ (∀ rnd : Nat, rnd < 2 ^ 32 →
        random_mask rnd ≠ 0 ∧ 1 ≤ random_mask rnd ∧ random_mask rnd ≤ 7
        ∧ (rnd % 8 = 0 → ∃ k, k < 3 ∧ random_mask rnd = 1 <<< k)) := by
  refine ⟨?_, ?_, ?_⟩
  · rw [pattern_random_breath_trace, breatheMasks_append, breatheMasks_append,
      breatheMasks_append, breatheMasks_map_breatheEvents_comp]
    have h1 : breatheMasks [Event.log "Pattern: Random (breath)"] = [] := rfl
    have h2 : breatheMasks offEvents = [] := rfl
    rw [h1, h2]
    simp
  · intro m hm
    rw [List.mem_map] at hm
    obtain ⟨i, _, rfl⟩ := hm
    exact random_mask_range _
  · intro rnd _
    have hr := random_mask_range rnd
    refine ⟨by omega, hr.1, hr.2, ?_⟩
    intro h0
    exact ⟨rnd % 3, (random_mask_fallback rnd h0).2, (random_mask_fallback rnd h0).1⟩

/-- Witness of C5: the draw 16 has its low three bits zero and gives the
mask `1 << 1`. -/
theorem C5_random_mask_nonzero_witness :
    (16 : Nat) < 2 ^ 32 ∧ 16 % 8 = 0 ∧ random_mask 16 = 2
    ∧ (∃ k, k < 3 ∧ random_mask 16 = 1 <<< k) :=
  ⟨by decide, by decide, by decide,
    ((C5_random_mask_nonzero cosfIdeal (fun _ => 16) 1 Hw.dark).2.2 16 (by decide)).2.2.2
      (by decide)⟩

/-- C6: over the reals the curve `0.5 * (1 - cos(π p))` is non-decreasing on
`[0, 1]`, takes values in `[0, 1]`, and has `curve 0 = 0`, `curve 1 = 1`,
`curve 0.5 = 0.5`. -/
theorem C6_curve_shape (p q : ℝ) (hp0 : 0 ≤ p) (_hp1 : p ≤ 1) (_hq0 : 0 ≤ q) (hq1 : q ≤ 1) :
    (p ≤ q → curve p ≤ curve q)
    ∧ (0 ≤ curve p ∧ curve p ≤ 1)
    ∧ curve 0 = 0 ∧ curve 1 = 1 ∧ curve 0.5 = 0.5
    ∧ curve p = 0.5 * (1 - Real.cos (Real.pi * p)) := by
  refine ⟨fun hpq => curve_mono p q hp0 hq1 hpq, ⟨curve_nonneg p, curve_le_one p⟩, curve_zero,
    curve_one, ?_, rfl⟩
  have h := curve_half
  norm_num at h ⊢
  exact h

/-- Witness of C6: `p = 1/4`, `q = 3/4`. -/
theorem C6_curve_shape_witness :
    curve (1 / 4) ≤ curve (3 / 4) ∧ 0 ≤ curve (1 / 4) ∧ curve (1 / 4) ≤ 1 :=
  have h := C6_curve_shape (1 / 4) (3 / 4) (by norm_num) (by norm_num) (by norm_num)
    (by norm_num)
  ⟨h.1 (by norm_num), h.2.1.1, h.2.1.2⟩

/-- C7: `DUTY_MAX = 1023`; for every index in 0..2 and every 32-bit duty,
`led_set_brightness_idx` stores `min(duty, 1023)` in the channel (and writes
nothing else); hence, once every channel is within 0..1023 (as after
start-up), it stays so after any sequence of operations of the program. -/
theorem C7_duty_within_range (cosf : ℚ → ℚ) :
    DUTY_MAX = 1023
    ∧ (∀ (i duty : Nat) (hw : Hw), i < NUM_LEDS → duty < 2 ^ 32 →
        (led_set_brightness_idx (i : Int) duty hw).duty (LED_CHS i) = min duty 1023
        ∧ (led_set_brightness_idx (i : Int) duty hw).trace
            = hw.trace ++ [Event.setDuty (LED_CHS i) (min duty 1023)])
    ∧ (∀ (hw : Hw), (∀ i, i < NUM_LEDS → hw.duty (LED_CHS i) ≤ 1023) →
        ∀ (ops : List Op) (i : Nat), i < NUM_LEDS →
          (ops.foldl (fun h op => op.run cosf h) hw).duty (LED_CHS i) ≤ 1023) := by
  have hmax : DUTY_MAX = 1023 := by decide
  refine ⟨hmax, ?_, ?_⟩
  · intro i duty hw hi _
    rw [led_set_brightness_idx_eq i duty hi hw, hmax, LED_CHS_eq]
    exact ⟨by simp [ledc_write], rfl⟩
  · intro hw hb ops
    have h0 : DutiesBounded hw := fun i hi => by rw [hmax]; exact hb i hi
    have h1 : DutiesBounded (ops.foldl (fun h op => op.run cosf h) hw) :=
      foldl_bounded (fun op h => op.run cosf h) (fun op h hh => Op_run_bounded cosf op h hh)
        ops hw h0
    intro i hi
    have := h1 i hi
    rw [hmax] at this
    exact this

/-- Witness of C7: duty 5000 written to index 1 is stored as 1023, and the
bound holds after a write, a breath and a pattern starting from the dark
state. -/
theorem C7_duty_within_range_witness :
    (1 : Nat) < NUM_LEDS ∧ (5000 : Nat) < 2 ^ 32
    ∧ (led_set_brightness_idx ((1 : Nat) : Int) 5000 Hw.dark).duty (LED_CHS 1) = min 5000 1023
    ∧ (([Op.setIdx 2 70000, Op.breathe 3, Op.knightRider 1] : List Op).foldl
        (fun h op => op.run cosfIdeal h) Hw.dark).duty (LED_CHS 2) ≤ 1023 :=
  ⟨by decide, by decide,
    ((C7_duty_within_range cosfIdeal).2.1 1 5000 Hw.dark (by decide) (by decide)).1,
    (C7_duty_within_range cosfIdeal).2.2 Hw.dark (fun _ _ => Nat.zero_le _)
      [Op.setIdx 2 70000, Op.breathe 3, Op.knightRider 1] 2 (by decide)⟩

/-- C8: with an accurate `cosf`, 10-bit resolution and 64 steps, the duty
written to every channel at the midpoint step 32 of `breathe_once(0b111)`, in
either half, is 511, which is within 1 of 512. -/
theorem C8_midpoint_duty (cosf : ℚ → ℚ) (hc : CosfAccurate cosf) (hw : Hw) (i : Nat)
    (hi : i < NUM_LEDS) :
    (afterWriteUp cosf 0b111 hw 32).duty (LED_CHS i) = 511
    ∧ (afterWriteDown cosf 0b111 hw 32).duty (LED_CHS i) = 511
    ∧ 512 - 1 ≤ (afterWriteUp cosf 0b111 hw 32).duty (LED_CHS i)
    ∧ (afterWriteUp cosf 0b111 hw 32).duty (LED_CHS i) ≤ 512 + 1
    ∧ DUTY_MAX = 1023 ∧ BREATH_STEPS = 64 := by
  have hbit : Nat.testBit 0b111 i = true := by
    unfold NUM_LEDS at hi
    interval_cases i <;> rfl
  have hmid := breath_duty_mid cosf hc
  have hle : breath_duty cosf 32 ≤ DUTY_MAX := by rw [hmid]; decide
  have hup : (afterWriteUp cosf 0b111 hw 32).duty (LED_CHS i) = 511 := by
    rw [afterWriteUp_duty cosf _ hw 32 i hi, groupDuty_of_le _ _ _ hle, if_pos hbit, hmid]
  have hdown : (afterWriteDown cosf 0b111 hw 32).duty (LED_CHS i) = 511 := by
    rw [afterWriteDown_duty cosf _ hw 32 i hi, groupDuty_of_le _ _ _ hle, if_pos hbit, hmid]
  refine ⟨hup, hdown, ?_, ?_, by decide, rfl⟩
  · rw [hup]
  · rw [hup]; decide

/-- Witness of C8: channel 0, from the dark state. -/
theorem C8_midpoint_duty_witness :
    CosfAccurate cosfIdeal ∧ 0 < NUM_LEDS
    ∧ (afterWriteUp cosfIdeal 0b111 Hw.dark 32).duty (LED_CHS 0) = 511 :=
  ⟨cosfIdeal_accurate, by decide,
    (C8_midpoint_duty cosfIdeal cosfIdeal_accurate Hw.dark 0 (by decide)).1⟩

/-- C9: for every mask, `breathe_once` performs the 65 ascending steps
0..64 and then the 65 descending steps 64..0, each one group write (three
channel writes) followed by one 15 ms delay, then switches all channels off;
it makes 130 delays of 15 ms whatever the mask; with mask 0 every channel
holds 0 after every group write. -/
theorem C9_breathe_once_step_budget (cosf : ℚ → ℚ) (mask : Nat) (hw : Hw) :
    (breathe_once cosf mask hw).trace
        = hw.trace ++ [Event.breathe mask]
          ++ (stepsUp.map (fun s => groupEvents mask (breath_duty cosf s)
                ++ [Event.delay 15])).flatten
          ++ (stepsDown.map (fun s => groupEvents mask (breath_duty cosf s)
                ++ [Event.delay 15])).flatten
          ++ [Event.setDuty 0 0, Event.setDuty 1 0, Event.setDuty 2 0]
    ∧ stepsUp = List.range 65 ∧ stepsDown = (List.range 65).reverse
    ∧ stepsUp.length = 65 ∧ stepsDown.length = 65
    ∧ (∀ d, ∃ d0 d1 d2, groupEvents mask d
        = [Event.setDuty 0 d0, Event.setDuty 1 d1, Event.setDuty 2 d2])
    ∧ delaysOf (breathe_once cosf mask hw).trace = delaysOf hw.trace ++ List.replicate 130 15
    ∧ delaysOf (breathe_once cosf 0 hw).trace = delaysOf (breathe_once cosf mask hw).trace
    ∧ (∀ d, groupEvents 0 d = [Event.setDuty 0 0, Event.setDuty 1 0, Event.setDuty 2 0])
    ∧ (∀ s i, s ≤ BREATH_STEPS → i < NUM_LEDS →
        (afterWriteUp cosf 0 hw s).duty (LED_CHS i) = 0
        ∧ (afterWriteDown cosf 0 hw s).duty (LED_CHS i) = 0) := by
  have hd : ∀ m, delaysOf (breathe_once cosf m hw).trace
      = delaysOf hw.trace ++ List.replicate 130 15 := by
    intro m
    rw [breathe_once_trace, delaysOf_append, delaysOf_breatheEvents]
  refine ⟨?_, rfl, rfl, rfl, rfl, ?_, hd mask, ?_, ?_, ?_⟩
  · rw [breathe_once_trace]
    simp only [breatheEvents, List.append_assoc]
    rfl
  · intro d
    exact ⟨_, _, _, rfl⟩
  · rw [hd 0, hd mask]
  · intro d
    simp [groupEvents, groupDuty_zero_mask]
  · intro s i _ hi
    rw [afterWriteUp_duty cosf 0 hw s i hi, afterWriteDown_duty cosf 0 hw s i hi,
      groupDuty_zero_mask]
    exact ⟨rfl, rfl⟩

/-- Witness of C9: mask 0, step 64, channel 2, from the dark state. -/
theorem C9_breathe_once_step_budget_witness :
    64 ≤ BREATH_STEPS ∧ 2 < NUM_LEDS
    ∧ (afterWriteUp cosfIdeal 0 Hw.dark 64).duty (LED_CHS 2) = 0
    ∧ (afterWriteDown cosfIdeal 0 Hw.dark 64).duty (LED_CHS 2) = 0 :=
  ⟨by decide, by decide,
    (C9_breathe_once_step_budget cosfIdeal 0 Hw.dark).2.2.2.2.2.2.2.2.2 64 2 (by decide)
      (by decide)⟩

/-- Counterexample to C10 as stated: with an accurate `cosf` the duty
produced at step `S = 64` is not 0 (it is at least 1022). -/
theorem C10_peak_counterexample :
    breath_duty cosfIdeal BREATH_STEPS ≠ 0 ∧ 1022 ≤ breath_duty cosfIdeal BREATH_STEPS := by
  have h := breath_duty_peak cosfIdeal cosfIdeal_accurate
  exact ⟨by omega, h.1⟩

/-- C10 (amended): with an accurate `cosf`, in both sweeps the duty produced
at step 0 is 0 and the duty produced at step `S = 64` is the peak, 1022 or
1023; step 0 is the first ascending and the last descending step, step `S`
the last ascending and the first descending one. -/
theorem C10_sweep_end_duties (cosf : ℚ → ℚ) (hc : CosfAccurate cosf) :
    breath_duty cosf 0 = 0
    ∧ (breath_duty cosf BREATH_STEPS = 1022 ∨ breath_duty cosf BREATH_STEPS = 1023)
    ∧ BREATH_STEPS = 64
    ∧ stepsUp.head? = some 0 ∧ stepsUp.getLast? = some BREATH_STEPS
    ∧ stepsDown.head? = some BREATH_STEPS ∧ stepsDown.getLast? = some 0
    ∧ (∀ (mask : Nat) (hw : Hw) (i : Nat), i < NUM_LEDS →
        (afterWriteUp cosf mask hw 0).duty (LED_CHS i) = 0
        ∧ (afterWriteDown cosf mask hw 0).duty (LED_CHS i) = 0
        ∧ (afterWriteUp cosf mask hw BREATH_STEPS).duty (LED_CHS i)
            = (if mask.testBit i then breath_duty cosf BREATH_STEPS else 0)
        ∧ (afterWriteDown cosf mask hw BREATH_STEPS).duty (LED_CHS i)
            = (if mask.testBit i then breath_duty cosf BREATH_STEPS else 0)) := by
  have h0 := breath_duty_first cosf hc
  have hp := breath_duty_peak cosf hc
  have hle : breath_duty cosf BREATH_STEPS ≤ DUTY_MAX :=
    breath_duty_le_max cosf hc BREATH_STEPS (le_refl _)
  refine ⟨h0, by omega, rfl, by decide, by decide, by decide, by decide, ?_⟩
  intro mask hw i hi
  rw [afterWriteUp_duty cosf mask hw 0 i hi, afterWriteDown_duty cosf mask hw 0 i hi,
    afterWriteUp_duty cosf mask hw _ i hi, afterWriteDown_duty cosf mask hw _ i hi,
    groupDuty_of_le _ _ _ hle, h0]
  refine ⟨?_, ?_, rfl, rfl⟩ <;> simp [groupDuty]

/-- Witness of C10 (amended): the ideal `cosf`, mask `0b010`, channel 1. -/
theorem C10_sweep_end_duties_witness :
    CosfAccurate cosfIdeal ∧ 1 < NUM_LEDS ∧ breath_duty cosfIdeal 0 = 0
    ∧ (afterWriteDown cosfIdeal 2 Hw.dark 0).duty (LED_CHS 1) = 0 :=
  ⟨cosfIdeal_accurate, by decide, (C10_sweep_end_duties cosfIdeal cosfIdeal_accurate).1,
    ((C10_sweep_end_duties cosfIdeal cosfIdeal_accurate).2.2.2.2.2.2.2 2 Hw.dark 1
      (by decide)).2.1⟩

/-! ## The peak of the cycle -/

theorem f32_intCast (z : ℤ) (h : |z| < 2 ^ 24) : f32 (z : ℚ) = z := by
  have := fround_exact 24 z 0 h
  simpa [f32] using this

theorem breath_phase_last : breath_phase BREATH_STEPS = 1 := by
  unfold breath_phase
  rw [breath_phase_exact BREATH_STEPS (le_refl _)]
  unfold BREATH_STEPS
  norm_num

theorem f32_f32_M_PI : f32 (f32 M_PI * 1) = f32 M_PI := by
  rw [mul_one, f32_M_PI_eq]
  have h := fround_exact 24 13176795 (-22) (by norm_num)
  have e : ((13176795 : ℤ) : ℚ) * 2 ^ (-22 : ℤ) = 13176795 / 2 ^ 22 := by
    norm_num [zpow_neg]
  rw [e] at h
  exact h

theorem f32_grid (c : ℚ) (hrep : f32 c = c) (hc : c ≠ 0) :
    ∃ n : ℤ, c = (n : ℚ) * 2 ^ (Int.log 2 |c| - 23) := by
  unfold f32 fround at hrep
  rw [if_neg hc] at hrep
  simp only at hrep
  have e : Int.log 2 |c| + 1 - ((24 : ℕ) : ℤ) = Int.log 2 |c| - 23 := by push_cast; ring
  rw [e] at hrep
  exact ⟨_, hrep.symm⟩

theorem f32_near_neg_one (c : ℚ) (hrep : f32 c = c) (h : |c + 1| ≤ 1 / 2 ^ 26) : c = -1 := by
  rw [abs_le] at h
  have hneg : c < 0 := by norm_num at h; linarith [h.2]
  have hc : c ≠ 0 := ne_of_lt hneg
  have habs : |c| = -c := abs_of_neg hneg
  have hpos : 0 < |c| := abs_pos.mpr hc
  obtain ⟨n, hn⟩ := f32_grid c hrep hc
  have hlo : (-1 : ℤ) ≤ Int.log 2 |c| := by
    apply (Int.zpow_le_iff_le_log (b := 2) (by norm_num) hpos (x := -1)).1
    rw [habs]
    norm_num [zpow_neg] at h ⊢
    linarith [h.2]
  have hhi : Int.log 2 |c| < 1 := by
    apply (Int.lt_zpow_iff_log_lt (b := 2) (by norm_num) hpos (x := 1)).1
    rw [habs]
    norm_num at h ⊢
    linarith [h.1]
  have hcases : Int.log 2 |c| = -1 ∨ Int.log 2 |c| = 0 := by omega
  rcases hcases with he | he
  · rw [he] at hn
    have e : ((-1 : ℤ) - 23) = -24 := by norm_num
    rw [e] at hn
    have hq : (n : ℚ) = c * 2 ^ 24 := by
      rw [hn]; norm_num [zpow_neg]; ring
    have h1 : |((n + 2 ^ 24 : ℤ) : ℚ)| < 1 := by
      push_cast
      rw [hq, abs_lt]
      constructor <;> norm_num at h ⊢ <;> linarith [h.1, h.2]
    have h2 : |n + 2 ^ 24| < 1 := by exact_mod_cast h1
    have h3 : n + 2 ^ 24 = 0 := Int.abs_lt_one_iff.mp h2
    have h4 : n = -2 ^ 24 := by omega
    rw [hn, h4]
    norm_num [zpow_neg]
  · rw [he] at hn
    have e : ((0 : ℤ) - 23) = -23 := by norm_num
    rw [e] at hn
    have hq : (n : ℚ) = c * 2 ^ 23 := by
      rw [hn]; norm_num [zpow_neg]; ring
    have h1 : |((n + 2 ^ 23 : ℤ) : ℚ)| < 1 := by
      push_cast
      rw [hq, abs_lt]
      constructor <;> norm_num at h ⊢ <;> linarith [h.1, h.2]
    have h2 : |n + 2 ^ 23| < 1 := by exact_mod_cast h1
    have h3 : n + 2 ^ 23 = 0 := Int.abs_lt_one_iff.mp h2
    have h4 : n = -2 ^ 23 := by omega
    rw [hn, h4]
    norm_num [zpow_neg]

theorem cos_f32_M_PI :
    -1 ≤ Real.cos ((f32 M_PI : ℚ) : ℝ) ∧ Real.cos ((f32 M_PI : ℚ) : ℝ) ≤ -1 + 1 / 2 ^ 44 := by
  refine ⟨Real.neg_one_le_cos _, ?_⟩
  have hP := f32_M_PI_near
  have hcos : Real.cos ((f32 M_PI : ℚ) : ℝ) = -Real.cos (((f32 M_PI : ℚ) : ℝ) - Real.pi) := by
    rw [Real.cos_sub_pi, neg_neg]
  rw [hcos]
  generalize ((f32 M_PI : ℚ) : ℝ) - Real.pi = d at hP ⊢
  have hd1 : |d| ≤ 1 := le_trans hP (by norm_num)
  have hb := Real.cos_bound hd1
  rw [abs_le] at hb
  have hd2 : |d| ^ 2 ≤ (1 / 2 ^ 22) ^ 2 := pow_le_pow_left₀ (abs_nonneg d) hP 2
  have hd4 : |d| ^ 4 ≤ (1 / 2 ^ 22) ^ 4 := pow_le_pow_left₀ (abs_nonneg d) hP 4
  have hsq : d ^ 2 = |d| ^ 2 := (sq_abs d).symm
  rw [hsq] at hb
  norm_num at hd2 hd4 hb ⊢
  linarith [hb.1, hb.2]

theorem rat_abs_le_of_real (q r : ℚ) (h : |(q : ℝ)| ≤ (r : ℝ)) : |q| ≤ r := by
  exact_mod_cast h

theorem f32_neg_one : f32 (-1) = -1 := by
  have := f32_intCast (-1) (by norm_num)
  simpa using this

theorem cosf_at_pi_of_nearest (cosf : ℚ → ℚ) (hn : CosfNearestAt cosf (f32 M_PI)) :
    cosf (f32 M_PI) = -1 := by
  obtain ⟨hrep, hbest⟩ := hn
  have h1 := hbest (-1) f32_neg_one
  have hC := cos_f32_M_PI
  apply f32_near_neg_one _ hrep
  have hr : |((cosf (f32 M_PI) : ℚ) : ℝ) + 1| ≤ 1 / 2 ^ 26 := by
    generalize ((cosf (f32 M_PI) : ℚ) : ℝ) = c at h1 ⊢
    generalize Real.cos ((f32 M_PI : ℚ) : ℝ) = C at h1 hC
    have h2 : |((-1 : ℚ) : ℝ) - C| ≤ 1 / 2 ^ 44 := by
      rw [abs_le]; push_cast; constructor <;> linarith [hC.1, hC.2]
    have h3 := le_trans h1 h2
    rw [abs_le] at h3 ⊢
    constructor <;> norm_num at h3 hC ⊢ <;> linarith [h3.1, h3.2, hC.1, hC.2]
  apply rat_abs_le_of_real
  push_cast
  exact hr

theorem breath_intensity_last (cosf : ℚ → ℚ) (h : cosf (f32 M_PI) = -1) :
    breath_intensity cosf BREATH_STEPS = 1 := by
  unfold breath_intensity
  rw [breath_phase_last, f32_f32_M_PI, h]
  have e2 : (1 : ℚ) - -1 = ((2 : ℤ) : ℚ) := by norm_num
  rw [e2, f32_intCast 2 (by norm_num)]
  have e1 : (1 : ℚ) / 2 * ((2 : ℤ) : ℚ) = ((1 : ℤ) : ℚ) := by norm_num
  rw [e1, f32_intCast 1 (by norm_num)]
  norm_num

theorem breath_value_eq (cosf : ℚ → ℚ) (s : Nat) :
    breath_value cosf s = f32 (breath_intensity cosf s * f32 (DUTY_MAX : ℚ)) := rfl

theorem breath_duty_last (cosf : ℚ → ℚ) (h : cosf (f32 M_PI) = -1) :
    breath_duty cosf BREATH_STEPS = 1023 := by
  unfold breath_duty
  rw [breath_value_eq, breath_intensity_last cosf h, f32_DUTY_MAX, one_mul]
  have e : (1023 : ℚ) = ((1023 : ℤ) : ℚ) := by norm_num
  rw [e, f32_intCast 1023 (by norm_num)]
  unfold f32_to_u32
  norm_num
  rfl

theorem cosfIdeal_at_pi : cosfIdeal (f32 M_PI) = -1 := by
  unfold cosfIdeal
  have hC := cos_f32_M_PI
  have hr : round (Real.cos ((f32 M_PI : ℚ) : ℝ) * 2 ^ 24) = -2 ^ 24 := by
    rw [round_eq, Int.floor_eq_iff]
    generalize Real.cos ((f32 M_PI : ℚ) : ℝ) = C at hC ⊢
    push_cast
    constructor <;> norm_num at hC ⊢ <;> linarith [hC.1, hC.2]
  rw [hr]
  norm_num

theorem cosfIdeal_nearest_at_pi : CosfNearestAt cosfIdeal (f32 M_PI) := by
  have hv := cosfIdeal_at_pi
  have hC := cos_f32_M_PI
  refine ⟨by rw [hv]; exact f32_neg_one, ?_⟩
  intro y hy
  rw [hv]
  by_contra hlt
  push_neg at hlt
  have h2 : |((-1 : ℚ) : ℝ) - Real.cos ((f32 M_PI : ℚ) : ℝ)| ≤ 1 / 2 ^ 44 := by
    rw [abs_le]; push_cast; constructor <;> linarith [hC.1, hC.2]
  have hy1 : |(y : ℝ) + 1| ≤ 1 / 2 ^ 26 := by
    have h3 := lt_of_lt_of_le hlt h2
    generalize Real.cos ((f32 M_PI : ℚ) : ℝ) = C at h3 hC
    rw [abs_lt] at h3
    rw [abs_le]
    constructor <;> norm_num at h3 hC ⊢ <;> linarith [h3.1, h3.2, hC.1, hC.2]
  have hy2 : |y + 1| ≤ 1 / 2 ^ 26 := by
    apply rat_abs_le_of_real
    push_cast
    exact hy1
  have hy3 := f32_near_neg_one y hy hy2
  rw [hy3] at hlt
  exact lt_irrefl _ hlt

/-! ## Channel writes in traces -/

theorem writesOf_append (a b : List Event) : writesOf (a ++ b) = writesOf a ++ writesOf b := by
  simp [writesOf, List.filterMap_append]

theorem writesOf_offEvents : writesOf offEvents = [(0, 0), (1, 0), (2, 0)] := rfl

theorem writesOf_replicate_nil (n : Nat) (ev : List Event) (h : n = 0) :
    writesOf ((List.replicate n ev).flatten) = [] := by
  subst h
  rfl

theorem dutiesDown_eq_reverse (cosf : ℚ → ℚ) : dutiesDown cosf = (dutiesUp cosf).reverse := by
  simp [dutiesDown, dutiesUp, stepsDown, stepsUp, List.map_reverse]

theorem steps_events_eq_duties (cosf : ℚ → ℚ) (mask : Nat) (l : List Nat) :
    (l.map (stepEvents cosf mask)).flatten
      = ((l.map (breath_duty cosf)).map
          (fun d => groupEvents mask d ++ [Event.delay 15])).flatten := by
  rw [List.map_map]
  rfl

theorem groupDuty_low_bits (m d i : Nat) (hi : i < NUM_LEDS) :
    groupDuty (m &&& 0b111) d i = groupDuty m d i := by
  unfold groupDuty
  have h7 : (0b111 : Nat) = 2 ^ 3 - 1 := rfl
  have hbit : (m &&& 0b111).testBit i = m.testBit i := by
    rw [h7, Nat.testBit_and, Nat.testBit_two_pow_sub_one]
    unfold NUM_LEDS at hi
    simp [hi]
  rw [hbit]

theorem groupEvents_low_bits (m d : Nat) : groupEvents (m &&& 0b111) d = groupEvents m d := by
  unfold groupEvents
  rw [groupDuty_low_bits m d 0 (by decide), groupDuty_low_bits m d 1 (by decide),
    groupDuty_low_bits m d 2 (by decide)]

theorem stepEvents_low_bits (cosf : ℚ → ℚ) (m s : Nat) :
    stepEvents cosf (m &&& 0b111) s = stepEvents cosf m s := by
  unfold stepEvents
  rw [groupEvents_low_bits]

theorem writesOf_breatheEvents_low_bits (cosf : ℚ → ℚ) (m : Nat) :
    writesOf (breatheEvents cosf (m &&& 0b111)) = writesOf (breatheEvents cosf m) := by
  unfold breatheEvents
  have h : stepEvents cosf (m &&& 0b111) = stepEvents cosf m :=
    funext (stepEvents_low_bits cosf m)
  rw [h]
  simp only [writesOf_append]
  rfl

theorem delaysOf_log (msg : String) : delaysOf [Event.log msg] = [] := rfl

theorem breatheMasks_log (msg : String) : breatheMasks [Event.log msg] = [] := rfl

theorem writesOf_log (msg : String) : writesOf [Event.log msg] = [] := rfl

theorem app_main_iteration_trace (cosf : ℚ → ℚ) (esp_random : Nat → Nat) (hw : Hw) :
    (app_main_iteration cosf esp_random hw).trace
      = hw.trace
        ++ ([Event.log "Pattern: Knight Rider (breath)"]
            ++ (List.replicate 3 (breatheEvents cosf 1 ++ breatheEvents cosf 2
                  ++ breatheEvents cosf 4 ++ breatheEvents cosf 2)).flatten
            ++ offEvents)
        ++ [Event.delay 600]
        ++ ([Event.log "Pattern: Binary Counter (breath)"]
            ++ (List.replicate 2 ((List.range 8).map (breatheEvents cosf)).flatten).flatten
            ++ offEvents)
        ++ [Event.delay 600]
        ++ ([Event.log "Pattern: Random (breath)"]
            ++ ((List.range 6).map
                  (fun i => breatheEvents cosf (random_mask (esp_random i % 2 ^ 32)))).flatten
            ++ offEvents)
        ++ [Event.delay 600] := by
  unfold app_main_iteration
  simp only [vTaskDelay, Hw.emit, pattern_knight_rider_breath_trace,
    pattern_binary_counter_breath_trace, pattern_random_breath_trace, List.append_assoc]
  rfl

/-! ## The loops with the LED count as a parameter -/

theorem forUpTo_map (n : Nat) (f : Nat → Nat) (breathe : Nat → Hw → Hw) (hw : Hw) :
    forUpTo n (fun i h => breathe (f i) h) hw
      = ((List.range n).map f).foldl (fun h m => breathe m h) hw := by
  unfold forUpTo
  rw [List.foldl_map]

theorem forDownTo_map (start lo : Int) (f : Int → Nat) (breathe : Nat → Hw → Hw) (hw : Hw) :
    forDownTo start lo (fun i h => breathe (f i) h) hw
      = ((downIndices start lo).map f).foldl (fun h m => breathe m h) hw := by
  unfold forDownTo
  rw [List.foldl_map]

theorem forUpTo_const_foldl (n : Nat) (l : List Nat) (breathe : Nat → Hw → Hw) (hw : Hw) :
    forUpTo n (fun _ h => l.foldl (fun h m => breathe m h) h) hw
      = ((List.replicate n l).flatten).foldl (fun h m => breathe m h) hw := by
  induction n with
  | zero => rfl
  | succ k ih =>
    rw [forUpTo_succ, ih, List.replicate_succ', List.flatten_append, List.foldl_append]
    simp

theorem bitMask_eq (i : Nat) (hi : i < 8) : bitMask i = 1 <<< i := by
  unfold bitMask
  interval_cases i <;> rfl

theorem downIndices_sweep (N : Nat) (h1 : 1 ≤ N) (h8 : N ≤ 8) :
    downIndices (toI32 (subU32 N 2)) 1
      = (List.range (N - 2)).map (fun k => ((N - 2 - k : Nat) : Int)) := by
  interval_cases N <;> decide

theorem sweep_return_masks (N : Nat) (h1 : 1 ≤ N) (h8 : N ≤ 8) :
    (downIndices (toI32 (subU32 N 2)) 1).map (fun i => bitMask i.toNat)
      = (List.range (N - 2)).map (fun k => 1 <<< (N - 2 - k)) := by
  interval_cases N <;> decide

theorem sweep_forward_masks (N : Nat) (h8 : N ≤ 8) :
    (List.range N).map bitMask = (List.range N).map (fun i => 1 <<< i) := by
  apply List.map_congr_left
  intro i hi
  rw [List.mem_range] at hi
  exact bitMask_eq i (by omega)

theorem knight_rider_sweeps_eq (N : Nat) (h1 : 1 ≤ N) (h8 : N ≤ 8) (breathe : Nat → Hw → Hw)
    (cycles : Int) (hw : Hw) :
    knight_rider_sweeps N breathe cycles hw
      = ((List.replicate cycles.toNat ((List.range N).map (fun i => 1 <<< i)
            ++ (List.range (N - 2)).map (fun k => 1 <<< (N - 2 - k)))).flatten).foldl
          (fun h m => breathe m h) hw := by
  have hbody : ∀ h : Hw,
      forDownTo (toI32 (subU32 N 2)) 1 (fun i h => breathe (bitMask i.toNat) h)
          (forUpTo N (fun i h => breathe (bitMask i) h) h)
        = ((List.range N).map (fun i => 1 <<< i)
            ++ (List.range (N - 2)).map (fun k => 1 <<< (N - 2 - k))).foldl
            (fun h m => breathe m h) h := by
    intro h
    rw [forUpTo_map N bitMask breathe h,
      forDownTo_map _ _ (fun i => bitMask i.toNat) breathe, sweep_forward_masks N h8,
      sweep_return_masks N h1 h8, List.foldl_append]
  unfold knight_rider_sweeps
  simp only [hbody]
  exact forUpTo_const_foldl _ _ breathe hw

theorem u8_for_from (body : Nat → Hw → Hw) (hw0 : Hw) (max_val : Nat) (hmax : max_val ≤ 255) :
    ∀ (d val fuel : Nat), val + d = max_val → d + 1 ≤ fuel →
      u8_for fuel max_val val body (forUpTo val body hw0) = some (forUpTo max_val body hw0) := by
  intro d
  induction d with
  | zero =>
    intro val fuel hv hf
    obtain ⟨f, rfl⟩ : ∃ f, fuel = f + 1 := ⟨fuel - 1, by omega⟩
    have hval : val = max_val := by omega
    subst hval
    simp [u8_for]
  | succ k ih =>
    intro val fuel hv hf
    obtain ⟨f, rfl⟩ : ∃ f, fuel = f + 1 := ⟨fuel - 1, by omega⟩
    have hlt : val < max_val := by omega
    have hwrap : (val + 1) % 2 ^ 8 = val + 1 := Nat.mod_eq_of_lt (by omega)
    unfold u8_for
    rw [if_pos hlt, hwrap, ← forUpTo_succ val body hw0]
    exact ih (val + 1) f (by omega) (by omega)

theorem u8_for_eq (body : Nat → Hw → Hw) (hw : Hw) (max_val fuel : Nat) (hmax : max_val ≤ 255)
    (hf : max_val + 1 ≤ fuel) :
    u8_for fuel max_val 0 body hw = some (forUpTo max_val body hw) :=
  u8_for_from body hw max_val hmax max_val 0 fuel (by omega) hf

theorem max_val_eq (N : Nat) (h7 : N ≤ 7) : ((1 <<< N) % 2 ^ 32) % 2 ^ 8 = 2 ^ N := by
  interval_cases N <;> rfl

theorem binary_counter_round_eq (N : Nat) (h7 : N ≤ 7) (breathe : Nat → Hw → Hw) (fuel : Nat)
    (hf : 2 ^ N + 1 ≤ fuel) (hw : Hw) :
    binary_counter_round N breathe fuel hw
      = some ((List.range (2 ^ N)).foldl (fun h v => breathe v h) hw) := by
  unfold binary_counter_round
  rw [max_val_eq N h7]
  have hmax : 2 ^ N ≤ 255 := by
    have : 2 ^ N ≤ 2 ^ 7 := Nat.pow_le_pow_right (by decide) h7
    omega
  rw [u8_for_eq breathe hw (2 ^ N) fuel hmax hf]
  rfl

/-! ## The claims, continued -/

/-- C11: with a `cosf` that is accurate and correctly rounded at
`(float)M_PI`, at step `s = 64` the phase is 1, the intensity is 1 and the
duty computed is `DUTY_MAX = 1023`, and no step computes a larger duty. -/
theorem C11_peak_is_duty_max (cosf : ℚ → ℚ) (hc : CosfAccurate cosf)
    (hn : CosfNearestAt cosf (f32 M_PI)) :
    breath_phase BREATH_STEPS = 1
    ∧ f32 (f32 M_PI * breath_phase BREATH_STEPS) = f32 M_PI
    ∧ cosf (f32 M_PI) = -1
    ∧ breath_intensity cosf BREATH_STEPS = 1
    ∧ breath_duty cosf BREATH_STEPS
        = f32_to_u32 (f32 (breath_intensity cosf BREATH_STEPS * f32 (DUTY_MAX : ℚ)))
    ∧ breath_duty cosf BREATH_STEPS = DUTY_MAX
    ∧ DUTY_MAX = 1023 ∧ BREATH_STEPS = 64
    ∧ (∀ s, s ≤ BREATH_STEPS → breath_duty cosf s ≤ breath_duty cosf BREATH_STEPS) := by
  have hv := cosf_at_pi_of_nearest cosf hn
  have hd := breath_duty_last cosf hv
  have hmax : DUTY_MAX = 1023 := by decide
  refine ⟨breath_phase_last, ?_, hv, breath_intensity_last cosf hv, rfl, ?_, hmax, rfl, ?_⟩
  · rw [breath_phase_last, f32_f32_M_PI]
  · rw [hd, hmax]
  · intro s hs
    rw [hd, ← hmax]
    exact breath_duty_le_max cosf hc s hs

/-- Witness of C11: the ideal `cosf`, compared with step 40. -/
theorem C11_peak_is_duty_max_witness :
    CosfAccurate cosfIdeal ∧ CosfNearestAt cosfIdeal (f32 M_PI)
    ∧ breath_duty cosfIdeal BREATH_STEPS = DUTY_MAX ∧ 40 ≤ BREATH_STEPS
    ∧ breath_duty cosfIdeal 40 ≤ breath_duty cosfIdeal BREATH_STEPS :=
  have h := C11_peak_is_duty_max cosfIdeal cosfIdeal_accurate cosfIdeal_nearest_at_pi
  ⟨cosfIdeal_accurate, cosfIdeal_nearest_at_pi, h.2.2.2.2.2.1, by decide,
    h.2.2.2.2.2.2.2.2 40 (by decide)⟩

/-- C12: for every mask the duties written by the descending loop of
`breathe_once` are those of the ascending loop in reverse order (the duty is a
function of the step alone), so the 130 duties of a breath cycle read the same
backwards. -/
theorem C12_duty_trace_palindrome (cosf : ℚ → ℚ) (mask : Nat) (hw : Hw) :
    (breathe_once cosf mask hw).trace
        = hw.trace ++ [Event.breathe mask]
          ++ ((dutiesUp cosf).map (fun d => groupEvents mask d ++ [Event.delay 15])).flatten
          ++ ((dutiesDown cosf).map (fun d => groupEvents mask d ++ [Event.delay 15])).flatten
          ++ [Event.setDuty 0 0, Event.setDuty 1 0, Event.setDuty 2 0]
    ∧ dutiesUp cosf = (List.range 65).map (breath_duty cosf)
    ∧ dutiesDown cosf = ((List.range 65).reverse).map (breath_duty cosf)
    ∧ dutiesDown cosf = (dutiesUp cosf).reverse
    ∧ (dutiesUp cosf ++ dutiesDown cosf).reverse = dutiesUp cosf ++ dutiesDown cosf
    ∧ (dutiesUp cosf ++ dutiesDown cosf).length = 130 := by
  have hrev := dutiesDown_eq_reverse cosf
  refine ⟨?_, rfl, rfl, hrev, ?_, ?_⟩
  · rw [breathe_once_trace]
    unfold breatheEvents
    rw [steps_events_eq_duties, steps_events_eq_duties]
    simp only [List.append_assoc]
    rfl
  · rw [hrev, List.reverse_append, List.reverse_reverse]
  · rw [hrev, List.length_append, List.length_reverse]
    simp [dutiesUp, stepsUp, BREATH_STEPS]

/-- C13: one iteration of the driver loop of `app_main` is the sweep pattern
with 3 cycles, a 600 ms hold, the binary counter pattern with 2 rounds, a
600 ms hold, the random pattern with 6 flashes and a 600 ms hold, in this order
and with nothing in between; it makes 3*4 + 2*8 + 6 = 34 `breathe_once` calls;
the loop then runs the next iteration, and after a successful start-up
`app_main` runs this loop. -/
theorem C13_driver_loop_iteration (cosf : ℚ → ℚ) (esp_random : Nat → Nat)
    (rnd : Nat → Nat → Nat) (n : Nat) (hw : Hw) :
    app_main_iteration cosf esp_random hw
        = vTaskDelay 600 (pattern_random_breath cosf esp_random 6
            (vTaskDelay 600 (pattern_binary_counter_breath cosf 2
              (vTaskDelay 600 (pattern_knight_rider_breath cosf 3 hw)))))
    ∧ (app_main_iteration cosf esp_random hw).trace
        = hw.trace
          ++ ([Event.log "Pattern: Knight Rider (breath)"]
              ++ (List.replicate 3 (breatheEvents cosf 1 ++ breatheEvents cosf 2
                    ++ breatheEvents cosf 4 ++ breatheEvents cosf 2)).flatten
              ++ [Event.setDuty 0 0, Event.setDuty 1 0, Event.setDuty 2 0])
          ++ [Event.delay 600]
          ++ ([Event.log "Pattern: Binary Counter (breath)"]
              ++ (List.replicate 2 ((List.range 8).map (breatheEvents cosf)).flatten).flatten
              ++ [Event.setDuty 0 0, Event.setDuty 1 0, Event.setDuty 2 0])
          ++ [Event.delay 600]
          ++ ([Event.log "Pattern: Random (breath)"]
              ++ ((List.range 6).map
                    (fun i => breatheEvents cosf (random_mask (esp_random i % 2 ^ 32)))).flatten
              ++ [Event.setDuty 0 0, Event.setDuty 1 0, Event.setDuty 2 0])
          ++ [Event.delay 600]
    ∧ breatheMasks (app_main_iteration cosf esp_random hw).trace
        = breatheMasks hw.trace
          ++ ([1, 2, 4, 2, 1, 2, 4, 2, 1, 2, 4, 2]
              ++ [0, 1, 2, 3, 4, 5, 6, 7, 0, 1, 2, 3, 4, 5, 6, 7]
              ++ (List.range 6).map (fun i => random_mask (esp_random i % 2 ^ 32)))
    ∧ ([1, 2, 4, 2, 1, 2, 4, 2, 1, 2, 4, 2]
        ++ [0, 1, 2, 3, 4, 5, 6, 7, 0, 1, 2, 3, 4, 5, 6, 7]
        ++ (List.range 6).map (fun i => random_mask (esp_random i % 2 ^ 32))).length = 34
    ∧ 3 * 4 + 2 * 8 + 6 = 34
    ∧ app_main_loop cosf rnd (n + 1) hw
        = app_main_iteration cosf (rnd n) (app_main_loop cosf rnd n hw)
    ∧ app_main_loop cosf rnd 0 hw = hw
    ∧ (∃ hw1, leds_pwm_init ⟨true, fun _ => true⟩
          (ESP_LOGI "ESP32 LED Breathing Patterns Started" hw) = some hw1
        ∧ app_main cosf ⟨true, fun _ => true⟩ rnd n hw
            = Outcome.running (app_main_loop cosf rnd n hw1)) := by
  have htr := app_main_iteration_trace cosf esp_random hw
  refine ⟨rfl, htr, ?_, ?_, rfl, rfl, rfl, ?_⟩
  · rw [htr]
    simp only [breatheMasks_append, breatheMasks_replicate_flatten, breatheMasks_breatheEvents,
      breatheMasks_map_breatheEvents, breatheMasks_map_breatheEvents_comp, breatheMasks_log]
    have h2 : breatheMasks offEvents = [] := rfl
    have h3 : breatheMasks [Event.delay 600] = [] := rfl
    have h4 : List.range 8 = [0, 1, 2, 3, 4, 5, 6, 7] := rfl
    rw [h2, h3, h4]
    simp [List.replicate]
  · simp
  · have hinit : ∃ hw1, leds_pwm_init ⟨true, fun _ => true⟩
        (ESP_LOGI "ESP32 LED Breathing Patterns Started" hw) = some hw1 := by
      rw [leds_pwm_init_eq]
      simp
    obtain ⟨hw1, h1⟩ := hinit
    refine ⟨hw1, h1, ?_⟩
    unfold app_main
    simp only [h1]

/-- C14: every nonzero 3-bit mask is breathed by `pattern_random_breath` for
some 32-bit draw, and each single-bit mask 1, 2, 4 is also produced by the
fallback branch, for a draw whose low three bits are zero. -/
theorem C14_random_masks_reachable (cosf : ℚ → ℚ) (hw : Hw) (m : Nat) (h1 : 1 ≤ m)
    (h7 : m ≤ 7) :
    (∃ rnd, rnd < 2 ^ 32 ∧ random_mask rnd = m
        ∧ breatheMasks (pattern_random_breath cosf (fun _ => rnd) 1 hw).trace
            = breatheMasks hw.trace ++ [m])
    ∧ (∃ rnd, rnd < 2 ^ 32 ∧ rnd % 8 = 0 ∧ rnd &&& 7 = 0 ∧ random_mask rnd = 1)
    ∧ (∃ rnd, rnd < 2 ^ 32 ∧ rnd % 8 = 0 ∧ rnd &&& 7 = 0 ∧ random_mask rnd = 2)
    ∧ (∃ rnd, rnd < 2 ^ 32 ∧ rnd % 8 = 0 ∧ rnd &&& 7 = 0 ∧ random_mask rnd = 4) := by
  refine ⟨⟨m, by omega, ?_, ?_⟩, ⟨0, by decide⟩, ⟨16, by decide⟩, ⟨8, by decide⟩⟩
  · interval_cases m <;> decide
  · have hm : random_mask (m % 2 ^ 32) = m := by
      interval_cases m <;> decide
    rw [pattern_random_breath_trace, breatheMasks_append, breatheMasks_append,
      breatheMasks_append, breatheMasks_map_breatheEvents_comp, breatheMasks_log]
    have h2 : breatheMasks offEvents = [] := rfl
    rw [h2]
    have hm2 : random_mask (m % 4294967296) = m := hm
    simp [hm2]

/-- Witness of C14: the mask `0b110` is reached with the draw 6. -/
theorem C14_random_masks_reachable_witness :
    (1 : Nat) ≤ 6 ∧ (6 : Nat) ≤ 7 ∧ (∃ rnd, rnd < 2 ^ 32 ∧ random_mask rnd = 6
        ∧ breatheMasks (pattern_random_breath cosfIdeal (fun _ => rnd) 1 Hw.dark).trace
            = breatheMasks Hw.dark.trace ++ [6]) :=
  ⟨by decide, by decide,
    (C14_random_masks_reachable cosfIdeal Hw.dark 6 (by decide) (by decide)).1⟩

/-- C15: if the timer configuration or one of the three channel
configurations fails, `leds_pwm_init` aborts and `app_main` is stopped there
whatever the number of loop iterations awaited: its trace is the start-up log
line only, with no `breathe_once` call and no duty write added. -/
theorem C15_failed_configuration_aborts (cosf : ℚ → ℚ) (drv : LedcDriver)
    (rnd : Nat → Nat → Nat) (n : Nat) (hw : Hw)
    (hfail : drv.timer_config = false ∨ ∃ i, i < NUM_LEDS ∧ drv.channel_config i = false) :
    (∀ hw0, leds_pwm_init drv hw0 = none)
    ∧ app_main cosf drv rnd n hw
        = Outcome.aborted (hw.trace ++ [Event.log "ESP32 LED Breathing Patterns Started"])
    ∧ breatheMasks (hw.trace ++ [Event.log "ESP32 LED Breathing Patterns Started"])
        = breatheMasks hw.trace
    ∧ writesOf (hw.trace ++ [Event.log "ESP32 LED Breathing Patterns Started"])
        = writesOf hw.trace := by
  have hnone : ∀ hw0, leds_pwm_init drv hw0 = none := by
    intro hw0
    rw [leds_pwm_init_eq]
    apply if_neg
    rintro ⟨ht, h0, h1, h2⟩
    rcases hfail with hf | ⟨i, hi, hf⟩
    · rw [ht] at hf
      exact Bool.noConfusion hf
    · unfold NUM_LEDS at hi
      interval_cases i
      · rw [h0] at hf; exact Bool.noConfusion hf
      · rw [h1] at hf; exact Bool.noConfusion hf
      · rw [h2] at hf; exact Bool.noConfusion hf
  refine ⟨hnone, ?_, ?_, ?_⟩
  · unfold app_main
    simp only [hnone]
    rfl
  · rw [breatheMasks_append, breatheMasks_log, List.append_nil]
  · rw [writesOf_append, writesOf_log, List.append_nil]

/-- Witness of C15: the configuration of the third channel fails. -/
theorem C15_failed_configuration_aborts_witness :
    (∃ i, i < NUM_LEDS ∧ (fun i => decide (i ≠ 2)) i = false)
    ∧ app_main cosfIdeal ⟨true, fun i => decide (i ≠ 2)⟩ (fun _ _ => 0) 5 Hw.dark
        = Outcome.aborted [Event.log "ESP32 LED Breathing Patterns Started"] :=
  ⟨⟨2, by decide, by decide⟩,
    (C15_failed_configuration_aborts cosfIdeal ⟨true, fun i => decide (i ≠ 2)⟩ (fun _ _ => 0) 5
      Hw.dark (Or.inr ⟨2, by decide, by decide⟩)).2.1⟩

/-- Counterexample to C16 as stated: `pattern_knight_rider_breath(0)` makes no
`breathe_once` call and yet writes 0 to the three channels, through the
`leds_all_off()` that ends the pattern. -/
theorem C16_explicit_all_off_counterexample :
    breatheMasks (pattern_knight_rider_breath cosfIdeal 0 Hw.dark).trace = []
    ∧ writesOf (pattern_knight_rider_breath cosfIdeal 0 Hw.dark).trace
        = [(0, 0), (1, 0), (2, 0)]
    ∧ writesOf (pattern_knight_rider_breath cosfIdeal 0 Hw.dark).trace ≠ [] := by
  have h : (pattern_knight_rider_breath cosfIdeal 0 Hw.dark).trace
      = [Event.log "Pattern: Knight Rider (breath)"] ++ offEvents := by
    rw [pattern_knight_rider_breath_trace]
    rfl
  rw [h]
  exact ⟨rfl, rfl, by decide⟩

/-- C16 (amended): every pattern generator ends with one explicit
`leds_all_off()`: the channel writes of a pattern are those made inside its
`breathe_once` calls followed by the writes of 0 to the channels 0, 1, 2, and a
pattern invoked with a count of 0 or less performs exactly these three
writes. -/
theorem C16_patterns_end_with_all_off (cosf : ℚ → ℚ) (esp_random : Nat → Nat) (count : Int)
    (hw : Hw) :
    writesOf (pattern_knight_rider_breath cosf count hw).trace
        = writesOf hw.trace
          ++ writesOf ((List.replicate count.toNat (breatheEvents cosf 1 ++ breatheEvents cosf 2
                ++ breatheEvents cosf 4 ++ breatheEvents cosf 2)).flatten)
          ++ [(0, 0), (1, 0), (2, 0)]
    ∧ writesOf (pattern_binary_counter_breath cosf count hw).trace
        = writesOf hw.trace
          ++ writesOf ((List.replicate count.toNat
                ((List.range 8).map (breatheEvents cosf)).flatten).flatten)
          ++ [(0, 0), (1, 0), (2, 0)]
    ∧ writesOf (pattern_random_breath cosf esp_random count hw).trace
        = writesOf hw.trace
          ++ writesOf (((List.range count.toNat).map
                (fun i => breatheEvents cosf (random_mask (esp_random i % 2 ^ 32)))).flatten)
          ++ [(0, 0), (1, 0), (2, 0)]
    ∧ (∀ (mask : Nat) (st : Hw),
        (breathe_once cosf mask st).trace = st.trace ++ breatheEvents cosf mask)
    ∧ (∀ st : Hw, writesOf (leds_all_off st).trace
        = writesOf st.trace ++ [(0, 0), (1, 0), (2, 0)])
    ∧ (count ≤ 0 →
        writesOf (pattern_knight_rider_breath cosf count hw).trace
            = writesOf hw.trace ++ [(0, 0), (1, 0), (2, 0)]
        ∧ writesOf (pattern_binary_counter_breath cosf count hw).trace
            = writesOf hw.trace ++ [(0, 0), (1, 0), (2, 0)]
        ∧ writesOf (pattern_random_breath cosf esp_random count hw).trace
            = writesOf hw.trace ++ [(0, 0), (1, 0), (2, 0)]) := by
  have hk : writesOf (pattern_knight_rider_breath cosf count hw).trace
      = writesOf hw.trace
        ++ writesOf ((List.replicate count.toNat (breatheEvents cosf 1 ++ breatheEvents cosf 2
              ++ breatheEvents cosf 4 ++ breatheEvents cosf 2)).flatten)
        ++ [(0, 0), (1, 0), (2, 0)] := by
    rw [pattern_knight_rider_breath_trace, writesOf_append, writesOf_append, writesOf_append,
      writesOf_log, writesOf_offEvents, List.append_nil]
  have hb : writesOf (pattern_binary_counter_breath cosf count hw).trace
      = writesOf hw.trace
        ++ writesOf ((List.replicate count.toNat
              ((List.range 8).map (breatheEvents cosf)).flatten).flatten)
        ++ [(0, 0), (1, 0), (2, 0)] := by
    rw [pattern_binary_counter_breath_trace, writesOf_append, writesOf_append, writesOf_append,
      writesOf_log, writesOf_offEvents, List.append_nil]
  have hr : writesOf (pattern_random_breath cosf esp_random count hw).trace
      = writesOf hw.trace
        ++ writesOf (((List.range count.toNat).map
              (fun i => breatheEvents cosf (random_mask (esp_random i % 2 ^ 32)))).flatten)
        ++ [(0, 0), (1, 0), (2, 0)] := by
    rw [pattern_random_breath_trace, writesOf_append, writesOf_append, writesOf_append,
      writesOf_log, writesOf_offEvents, List.append_nil]
  refine ⟨hk, hb, hr, breathe_once_trace cosf, ?_, ?_⟩
  · intro st
    rw [leds_all_off_trace, writesOf_append, writesOf_offEvents]
  · intro h0
    have hz : count.toNat = 0 := by omega
    rw [hk, hb, hr, hz]
    exact ⟨by simp [writesOf], by simp [writesOf], by simp [writesOf]⟩

/-- Witness of C16 (amended): the binary counter pattern with count -1. -/
theorem C16_patterns_end_with_all_off_witness :
    (-1 : Int) ≤ 0
    ∧ writesOf (pattern_binary_counter_breath cosfIdeal (-1) Hw.dark).trace
        = writesOf Hw.dark.trace ++ [(0, 0), (1, 0), (2, 0)] :=
  ⟨by decide,
    ((C16_patterns_end_with_all_off cosfIdeal (fun _ => 0) (-1) Hw.dark).2.2.2.2.2
      (by decide)).2.1⟩

/-- C17: with the LED count a parameter `N` in 1..8 and the loop bounds as
written (`int i = N - 2` computed in unsigned arithmetic and converted back),
each cycle of the sweep breathes `1<<0 .. 1<<(N-1)` in ascending order and then
`1<<(N-2) .. 1<<1` in descending order; for `N = 1` and `N = 2` the return
sweep has no iteration; the program is the instance `N = 3`. -/
theorem C17_sweep_with_led_count (N : Nat) (h1 : 1 ≤ N) (h8 : N ≤ 8)
    (breathe : Nat → Hw → Hw) (cycles : Int) (hw : Hw) :
    knight_rider_sweeps N breathe cycles hw
        = ((List.replicate cycles.toNat ((List.range N).map (fun i => 1 <<< i)
              ++ (List.range (N - 2)).map (fun k => 1 <<< (N - 2 - k)))).flatten).foldl
            (fun h m => breathe m h) hw
    ∧ downIndices (toI32 (subU32 N 2)) 1
        = (List.range (N - 2)).map (fun k => ((N - 2 - k : Nat) : Int))
    ∧ (N ≤ 2 → downIndices (toI32 (subU32 N 2)) 1 = [])
    ∧ toI32 (subU32 1 2) = -1 ∧ toI32 (subU32 2 2) = 0
    ∧ (∀ cosf : ℚ → ℚ, pattern_knight_rider_breath cosf cycles hw
        = leds_all_off (knight_rider_sweeps NUM_LEDS (breathe_once cosf) cycles
            (ESP_LOGI "Pattern: Knight Rider (breath)" hw))) := by
  have hd := downIndices_sweep N h1 h8
  refine ⟨knight_rider_sweeps_eq N h1 h8 breathe cycles hw, hd, ?_, by decide, by decide,
    fun _ => rfl⟩
  intro h2
  rw [hd]
  have hz : N - 2 = 0 := by omega
  rw [hz]
  rfl

/-- Witness of C17: `N = 1`, where the return sweep is empty and each cycle
breathes the mask 1 once. -/
theorem C17_sweep_with_led_count_witness :
    (1 : Nat) ≤ 1 ∧ (1 : Nat) ≤ 8 ∧ downIndices (toI32 (subU32 1 2)) 1 = []
    ∧ knight_rider_sweeps 1 (breathe_once cosfIdeal) 2 Hw.dark
        = ((List.replicate (2 : Int).toNat ((List.range 1).map (fun i => 1 <<< i)
              ++ (List.range (1 - 2)).map (fun k => 1 <<< (1 - 2 - k)))).flatten).foldl
            (fun h m => breathe_once cosfIdeal m h) Hw.dark :=
  have h := C17_sweep_with_led_count 1 (by decide) (by decide) (breathe_once cosfIdeal) 2
    Hw.dark
  ⟨by decide, by decide, h.2.2.1 (by decide), h.1⟩

/-- For an LED count `N` in 1..7 the 8-bit arithmetic of the binary counter is
exact: `max_val = 2 ^ N`, the `uint8_t` loop exits within `2 ^ N + 1` tests of
its condition, and the round breathes 0, 1, .., `2 ^ N - 1` in this order; the
round of the program is the instance `N = 3`. -/
theorem binary_counter_round_up_to_seven (N : Nat) (h7 : N ≤ 7)
    (breathe : Nat → Hw → Hw) (fuel : Nat) (hf : 2 ^ N + 1 ≤ fuel) (hw : Hw) :
    binary_counter_round N breathe fuel hw
        = some ((List.range (2 ^ N)).foldl (fun h v => breathe v h) hw)
    ∧ ((1 <<< N) % 2 ^ 32) % 2 ^ 8 = 2 ^ N
    ∧ (∀ v, v ∈ List.range (2 ^ N) ↔ v ≤ 2 ^ N - 1)
    ∧ (List.range (2 ^ N)).Pairwise (fun a b => a < b)
    ∧ (∀ cosf : ℚ → ℚ, binary_counter_round NUM_LEDS (breathe_once cosf) 256 hw
        = some (forUpTo 8 (fun val h => breathe_once cosf val h) hw)) := by
  refine ⟨binary_counter_round_eq N h7 breathe fuel hf hw, max_val_eq N h7, ?_,
    List.pairwise_lt_range _, ?_⟩
  · intro v
    rw [List.mem_range]
    have : 0 < 2 ^ N := Nat.two_pow_pos N
    omega
  · intro cosf
    have h := binary_counter_round_eq NUM_LEDS (by decide) (breathe_once cosf) 256
      (by decide) hw
    rw [h]
    rfl

/-- C19: for every count, zero and negative ones included, and every prior
state, each of the three patterns returns (the functions are total) with duty 0
in each of the channels 0..2. -/
theorem C19_patterns_end_dark (cosf : ℚ → ℚ) (esp_random : Nat → Nat) (count : Int) (hw : Hw)
    (i : Nat) (hi : i < NUM_LEDS) :
    (pattern_knight_rider_breath cosf count hw).duty (LED_CHS i) = 0
    ∧ (pattern_binary_counter_breath cosf count hw).duty (LED_CHS i) = 0
    ∧ (pattern_random_breath cosf esp_random count hw).duty (LED_CHS i) = 0 := by
  rw [LED_CHS_eq]
  refine ⟨?_, ?_, ?_⟩
  · unfold pattern_knight_rider_breath
    simp only
    rw [leds_all_off_duty, if_pos hi]
  · unfold pattern_binary_counter_breath
    simp only
    rw [leds_all_off_duty, if_pos hi]
  · unfold pattern_random_breath
    simp only
    rw [leds_all_off_duty, if_pos hi]

/-- Witness of C19: count -3, channel 2, from a state with every channel at
duty 900. -/
theorem C19_patterns_end_dark_witness :
    2 < NUM_LEDS
    ∧ (pattern_knight_rider_breath cosfIdeal (-3) ⟨fun _ => 900, []⟩).duty (LED_CHS 2) = 0
    ∧ (pattern_binary_counter_breath cosfIdeal (-3) ⟨fun _ => 900, []⟩).duty (LED_CHS 2) = 0
    ∧ (pattern_random_breath cosfIdeal (fun _ => 0) (-3) ⟨fun _ => 900, []⟩).duty (LED_CHS 2)
        = 0 :=
  ⟨by decide,
    C19_patterns_end_dark cosfIdeal (fun _ => 0) (-3) ⟨fun _ => 900, []⟩ 2 (by decide)⟩

/-- C20: the mask bits at positions 3..7 are ignored:
`leds_set_group_brightness(m, duty)` and
`leds_set_group_brightness(m & 0b111, duty)` give the same state, and
`breathe_once(m)` and `breathe_once(m & 0b111)` make the same channel writes and
delays and end in the same channel state. -/
theorem C20_high_mask_bits_ignored (cosf : ℚ → ℚ) (m duty : Nat) (hw : Hw) :
    leds_set_group_brightness m duty hw = leds_set_group_brightness (m &&& 0b111) duty hw
    ∧ writesOf (breathe_once cosf m hw).trace
        = writesOf (breathe_once cosf (m &&& 0b111) hw).trace
    ∧ delaysOf (breathe_once cosf m hw).trace
        = delaysOf (breathe_once cosf (m &&& 0b111) hw).trace
    ∧ (breathe_once cosf m hw).duty = (breathe_once cosf (m &&& 0b111) hw).duty := by
  refine ⟨?_, ?_, ?_, ?_⟩
  · rw [leds_set_group_brightness_eq, leds_set_group_brightness_eq,
      groupDuty_low_bits m duty 0 (by decide), groupDuty_low_bits m duty 1 (by decide),
      groupDuty_low_bits m duty 2 (by decide)]
  · rw [breathe_once_trace, breathe_once_trace, writesOf_append, writesOf_append,
      writesOf_breatheEvents_low_bits]
  · rw [breathe_once_trace, breathe_once_trace, delaysOf_append, delaysOf_append,
      delaysOf_breatheEvents, delaysOf_breatheEvents]
  · funext ch
    rw [breathe_once_duty, breathe_once_duty]

end LedBreath
